import Mathlib

/-!
# Bouncing-ball simulation: embedding of `main.go`

The `float32` quantities of the program are embedded as rationals, so that
the statements below are about exact arithmetic; the one exception is the
section on `DrawCircle` in binary32 arithmetic, where every result is rounded
as the program rounds it.  Mutating methods become functions from the old
value to the new one, the random generator becomes an explicit record of
draws, and the renderer becomes the list of calls made on it.
-/

namespace Physics

/-! ## Constants -/

/-- Arena width, `WIDTH = 1280`. -/
def WIDTH : ℚ := 1280

/-- Arena height, `HEIGHT = 960`. -/
def HEIGHT : ℚ := 960

/-- Per-frame gravity, `GRAVITY = 0.05`. -/
def GRAVITY : ℚ := 5 / 100

/-- Bounce damping, `FRICTION = 0.99`. -/
def FRICTION : ℚ := 99 / 100

/-- Frame rate target, `TARGET_FPS = 60`. -/
def TARGET_FPS : Nat := 60

/-- Maximum number of balls, `N = 15`. -/
def N : Nat := 15

/-! ## Data model -/

/-- The anonymous `struct{ r, g, b, a uint8 }`; channels are kept below 256 by
the operations that build one. -/
structure Color where
  r : Nat
  g : Nat
  b : Nat
  a : Nat
  deriving DecidableEq

/-- The `Ball` struct. -/
structure Ball where
  x : ℚ
  y : ℚ
  dx : ℚ
  dy : ℚ
  mass : ℚ
  radius : ℚ
  color : Color
  deriving DecidableEq

/-- Conversion `uint8(n)` of a non-negative `int`. -/
def toUint8 (n : Nat) : Nat := n % 256

/-- The values that one call of `NewBall` takes from the random generator, in
call order: four results of `rand.Float32()` and three of `rand.Intn(200)`. -/
structure BallDraws where
  u : ℚ
  v : ℚ
  s : ℚ
  t : ℚ
  cr : Nat
  cg : Nat
  cb : Nat
  deriving DecidableEq

/-- The contract of the generator: `rand.Float32()` lies in `[0, 1)` and
`rand.Intn(200)` in `[0, 200)`. -/
def BallDraws.Valid (d : BallDraws) : Prop :=
  (0 ≤ d.u ∧ d.u < 1) ∧ (0 ≤ d.v ∧ d.v < 1) ∧ (0 ≤ d.s ∧ d.s < 1) ∧ (0 ≤ d.t ∧ d.t < 1) ∧
    d.cr < 200 ∧ d.cg < 200 ∧ d.cb < 200

/-- The function `NewBall(mass, radius)`, with the random draws made explicit. -/
def NewBall (mass radius : ℚ) (d : BallDraws) : Ball :=
  let x := radius + d.u * (WIDTH - 2 * radius)
  let y := radius + d.v * (HEIGHT - 2 * radius)
  let dx := (d.s * 2 - 1) * 2
  let dy := (d.t * 2 - 1) * (3 / 2)
  { x := x
    y := y
    dx := dx
    dy := dy
    mass := mass
    radius := radius
    color :=
      { r := toUint8 (d.cr + 55)
        g := toUint8 (d.cg + 55)
        b := toUint8 (d.cb + 55)
        a := 255 } }

/-! ## `Ball.Update` -/

/-- First statement of `Update`: `b.dy += GRAVITY`. -/
def Ball.applyGravity (b : Ball) : Ball :=
  { b with dy := b.dy + GRAVITY }

/-- Second and third statements of `Update`: `b.x += b.dx; b.y += b.dy`. -/
def Ball.integrate (b : Ball) : Ball :=
  let b := { b with x := b.x + b.dx }
  { b with y := b.y + b.dy }

/-- Right-wall check of `Update`. -/
def Ball.rightWall (b : Ball) : Ball :=
  if b.x + b.radius > WIDTH then
    { b with x := WIDTH - b.radius, dx := -b.dx * FRICTION }
  else b

/-- Left-wall check of `Update`. -/
def Ball.leftWall (b : Ball) : Ball :=
  if b.x - b.radius < 0 then
    { b with x := b.radius, dx := -b.dx * FRICTION }
  else b

/-- Bottom-wall check of `Update`: clamp, reflect `dy`, then damp `dx`. -/
def Ball.bottomWall (b : Ball) : Ball :=
  if b.y + b.radius > HEIGHT then
    let b := { b with y := HEIGHT - b.radius }
    let b := { b with dy := -b.dy * FRICTION }
    { b with dx := b.dx * FRICTION }
  else b

/-- Top-wall check of `Update`. -/
def Ball.topWall (b : Ball) : Ball :=
  if b.y - b.radius < 0 then
    { b with y := b.radius, dy := -b.dy * FRICTION }
  else b

/-- The method `(b *Ball) Update()`: gravity, integration, then the four wall
checks in the order right, left, bottom, top. -/
def Ball.Update (b : Ball) : Ball :=
  b.applyGravity.integrate.rightWall.leftWall.bottomWall.topWall

/-! ## `DrawCircle` -/

/-- Text passed to `renderer.DebugText`: the arguments formatted by the two
`fmt.Sprintf` calls of the frame. -/
inductive DebugLine where
  | frameFps (frameCount : Int) (fps : ℚ)
  | ballsGravity (balls : Nat) (gravity : ℚ)
  deriving DecidableEq

/-- A call made on the renderer. -/
inductive RenderOp where
  | SetDrawColor (r g b a : Nat)
  | Clear
  | DebugText (x y : ℚ) (text : DebugLine)
  | RenderPoint (x y : ℚ)
  | Present
  deriving DecidableEq

/-- The local variables `x, y, tx, ty, error` of `DrawCircle`. -/
structure CircleState where
  x : ℚ
  y : ℚ
  tx : ℚ
  ty : ℚ
  error : ℚ
  deriving DecidableEq

/-- Values of the locals of `DrawCircle` on entry to the loop. -/
def CircleState.init (radius : ℚ) : CircleState :=
  let diameter := radius * 2
  let x := radius - 1
  let y := 0
  let tx := 1
  let ty := 1
  { x := x, y := y, tx := tx, ty := ty, error := tx - diameter }

/-- The eight `RenderPoint` calls at the top of the loop body, in source order. -/
def CircleState.plot (centreX centreY : ℚ) (s : CircleState) : List RenderOp :=
  [ RenderOp.RenderPoint (centreX + s.x) (centreY - s.y),
    RenderOp.RenderPoint (centreX + s.x) (centreY + s.y),
    RenderOp.RenderPoint (centreX - s.x) (centreY - s.y),
    RenderOp.RenderPoint (centreX - s.x) (centreY + s.y),
    RenderOp.RenderPoint (centreX + s.y) (centreY - s.x),
    RenderOp.RenderPoint (centreX + s.y) (centreY + s.x),
    RenderOp.RenderPoint (centreX - s.y) (centreY - s.x),
    RenderOp.RenderPoint (centreX - s.y) (centreY + s.x) ]

/-- The two `if` statements that end the loop body; the second one tests the
`error` left by the first. -/
def CircleState.advance (diameter : ℚ) (s : CircleState) : CircleState :=
  let s :=
    if s.error ≤ 0 then
      let s := { s with y := s.y + 1 }
      let s := { s with error := s.error + s.ty }
      { s with ty := s.ty + 2 }
    else s
  if s.error > 0 then
    let s := { s with x := s.x - 1 }
    let s := { s with tx := s.tx + 2 }
    { s with error := s.error + (s.tx - diameter) }
  else s

/-- The loop `for x >= y { ... }` of `DrawCircle`: the list of the states in
which the body was entered, in execution order. -/
def circleLoop (diameter : ℚ) (s : CircleState) : List CircleState :=
  if s.x ≥ s.y then s :: circleLoop diameter (s.advance diameter) else []
termination_by (⌊s.x - s.y⌋ + 1).toNat
decreasing_by
  rename_i h
  have hgap : (s.advance diameter).x - (s.advance diameter).y ≤ s.x - s.y - 1 := by
    unfold CircleState.advance
    dsimp only
    split_ifs <;> (try dsimp only) <;> linarith
  have h0 : (0 : ℤ) ≤ ⌊s.x - s.y⌋ := Int.floor_nonneg.mpr (sub_nonneg.mpr h)
  have h1 : ⌊(s.advance diameter).x - (s.advance diameter).y⌋ ≤ ⌊s.x - s.y⌋ - 1 := by
    rw [← Int.floor_sub_one]
    exact Int.floor_mono hgap
  omega

/-- The function `DrawCircle(renderer, centreX, centreY, radius, color)`: the
calls it makes on the renderer, in order. -/
def DrawCircle (centreX centreY radius : ℚ) (color : Color) : List RenderOp :=
  let diameter := radius * 2
  RenderOp.SetDrawColor color.r color.g color.b color.a ::
    (circleLoop diameter (CircleState.init radius)).flatMap (CircleState.plot centreX centreY)

/-! ## `DrawCircle` in binary32 arithmetic

The program computes on `float32`.  The definitions of this section repeat
`DrawCircle` with every arithmetic result rounded to binary32, to evaluate the
program where rounding changes what is drawn. -/

/-- The power `2 ^ z` for an integer `z`. -/
def pow2 (z : Int) : ℚ :=
  if 0 ≤ z then ((2 ^ z.toNat : Nat) : ℚ) else 1 / ((2 ^ (-z).toNat : Nat) : ℚ)

/-- Number of binary digits of `n` (0 for 0), given at least that many steps. -/
def bitLength : Nat → Nat → Nat
  | 0, _ => 0
  | steps + 1, n => if n = 0 then 0 else bitLength steps (n / 2) + 1

/-- For `q ≠ 0`, the integer `e` with `2 ^ e ≤ |q| < 2 ^ (e + 1)`: the difference
of the bit lengths of numerator and denominator, or one less. -/
def log2Floor (q : ℚ) : Int :=
  let a : Int := (bitLength q.num.natAbs q.num.natAbs : Nat)
  let b : Int := (bitLength q.den q.den : Nat)
  if pow2 (a - b) ≤ |q| then a - b else a - b - 1

/-- Rounding to the nearest integer, a tie going to the even one. -/
def roundEven (t : ℚ) : Int :=
  let f := ⌊t⌋
  let r := t - f
  if r < 1 / 2 then f
  else if r > 1 / 2 then f + 1
  else if f % 2 = 0 then f else f + 1

/-- Rounding of an exact result to `float32` (binary32, round to nearest, ties
to even): 24 significant bits, least exponent -126, subnormal numbers included.
Results beyond the largest finite `float32` are not treated: the exponent is
not bounded above. -/
def f32 (q : ℚ) : ℚ :=
  if q.num = 0 then 0
  else
    let e := max (log2Floor q) (-126)
    let ulp := pow2 (e - 23)
    (roundEven (q / ulp) : ℚ) * ulp

/-- Values of the locals of `DrawCircle` on entry to the loop, in `float32`. -/
def CircleState.init32 (radius : ℚ) : CircleState :=
  let diameter := f32 (radius * 2)
  let x := f32 (radius - 1)
  let y := 0
  let tx := 1
  let ty := 1
  { x := x, y := y, tx := tx, ty := ty, error := f32 (tx - diameter) }

/-- The eight `RenderPoint` calls of the loop body, each coordinate a rounded
`float32` sum or difference. -/
def CircleState.plot32 (centreX centreY : ℚ) (s : CircleState) : List RenderOp :=
  [ RenderOp.RenderPoint (f32 (centreX + s.x)) (f32 (centreY - s.y)),
    RenderOp.RenderPoint (f32 (centreX + s.x)) (f32 (centreY + s.y)),
    RenderOp.RenderPoint (f32 (centreX - s.x)) (f32 (centreY - s.y)),
    RenderOp.RenderPoint (f32 (centreX - s.x)) (f32 (centreY + s.y)),
    RenderOp.RenderPoint (f32 (centreX + s.y)) (f32 (centreY - s.x)),
    RenderOp.RenderPoint (f32 (centreX + s.y)) (f32 (centreY + s.x)),
    RenderOp.RenderPoint (f32 (centreX - s.y)) (f32 (centreY - s.x)),
    RenderOp.RenderPoint (f32 (centreX - s.y)) (f32 (centreY + s.x)) ]

/-- The two `if` statements that end the loop body, in `float32`. -/
def CircleState.advance32 (diameter : ℚ) (s : CircleState) : CircleState :=
  let s :=
    if s.error ≤ 0 then
      let s := { s with y := f32 (s.y + 1) }
      let s := { s with error := f32 (s.error + s.ty) }
      { s with ty := f32 (s.ty + 2) }
    else s
  if s.error > 0 then
    let s := { s with x := f32 (s.x - 1) }
    let s := { s with tx := f32 (s.tx + 2) }
    { s with error := f32 (s.error + f32 (s.tx - diameter)) }
  else s

/-- The loop `for x >= y { ... }` of `DrawCircle` in `float32`, run for at most
the given number of passes: the states in which the body was entered, or
`none` if the loop has not stopped by then. -/
def circleLoop32 (diameter : ℚ) : Nat → CircleState → Option (List CircleState)
  | 0, s => if s.x ≥ s.y then none else some []
  | passes + 1, s =>
    if s.x ≥ s.y then
      (circleLoop32 diameter passes (s.advance32 diameter)).map (fun rest => s :: rest)
    else some []

/-- The function `DrawCircle` in `float32`, its loop run for at most the given
number of passes: the calls made on the renderer, in order. -/
def DrawCircle32 (passes : Nat) (centreX centreY radius : ℚ) (color : Color) :
    Option (List RenderOp) :=
  let diameter := f32 (radius * 2)
  (circleLoop32 diameter passes (CircleState.init32 radius)).map (fun states =>
    RenderOp.SetDrawColor color.r color.g color.b color.a ::
      states.flatMap (CircleState.plot32 centreX centreY))

/-! ## The frame loop of `main` -/

/-- An event returned by `sdl.PollEvent`; only its being `EVENT_QUIT` is read. -/
inductive Event where
  | Quit
  | Other
  deriving DecidableEq

/-- The loop `for sdl.PollEvent(&event) { ... }` over the pending events:
whether it leaves the callback with `sdl.EndLoop`. -/
def pollEvents : List Event → Bool
  | [] => false
  | e :: rest => if e = Event.Quit then true else pollEvents rest

/-- What one frame reads from outside the program: the pending events, the
value of `fps` obtained from the clock, and the draws used when a ball is
spawned (`rand.Intn(20)`, then those of `NewBall`). -/
structure FrameInput where
  events : List Event
  fps : ℚ
  spawnRadius : Nat
  spawnBall : BallDraws
  deriving DecidableEq

/-- The variables `frameCount` and `balls` captured by the loop callback. -/
structure Sim where
  frameCount : Int
  balls : List Ball
  deriving DecidableEq

/-- Two's-complement wrap of a 64-bit `int`. -/
def wrapInt (n : Int) : Int := (n + 2 ^ 63) % 2 ^ 64 - 2 ^ 63

/-- The loop `for _, ball := range balls { ball.Update(); DrawCircle(...) }`:
the balls after the loop and the renderer calls made. -/
def updateAndDraw : List Ball → List Ball × List RenderOp
  | [] => ([], [])
  | ball :: rest =>
    let ball := ball.Update
    let ops := DrawCircle ball.x ball.y ball.radius ball.color
    let r := updateAndDraw rest
    (ball :: r.1, ops ++ r.2)

/-- The spawn step: `if frameCount%180 == 0 && len(balls) < N { ... }`. -/
def spawn (frameCount : Int) (balls : List Ball) (k : Nat) (d : BallDraws) : List Ball :=
  if frameCount.tmod 180 = 0 ∧ balls.length < N then
    let radius : ℚ := ((k + 10 : Nat) : ℚ)
    balls ++ [NewBall (radius / 2) radius d]
  else balls

/-- Result of one call of the loop callback. -/
structure Outcome where
  endLoop : Bool
  sim : Sim
  ops : List RenderOp
  deriving DecidableEq

/-- One call of the callback given to `sdl.RunLoop`, up to `renderer.Present()`. -/
def frame (inp : FrameInput) (s : Sim) : Outcome :=
  if pollEvents inp.events then
    { endLoop := true, sim := s, ops := [] }
  else
    let clear := [RenderOp.SetDrawColor 0 0 0 255, RenderOp.Clear]
    let frameCount := wrapInt (s.frameCount + 1)
    let text :=
      [ RenderOp.SetDrawColor 255 255 255 255,
        RenderOp.DebugText 10 10 (DebugLine.frameFps frameCount inp.fps),
        RenderOp.DebugText 10 30 (DebugLine.ballsGravity s.balls.length GRAVITY) ]
    let r := updateAndDraw s.balls
    let balls := spawn frameCount r.1 inp.spawnRadius inp.spawnBall
    { endLoop := false
      sim := { frameCount := frameCount, balls := balls }
      ops := clear ++ text ++ r.2 ++ [RenderOp.Present] }

/-- The state with which `main` enters the loop. -/
def initialSim (d1 d2 d3 d4 d5 : BallDraws) : Sim :=
  { frameCount := 0
    balls :=
      [ NewBall 10 20 d1,
        NewBall 5 15 d2,
        NewBall 15 25 d3,
        NewBall 8 18 d4,
        NewBall 12 22 d5 ] }

/-- The loop of `sdl.RunLoop` over the given frames: it stops at the first
callback that returns `sdl.EndLoop`. -/
def runLoop : List FrameInput → Sim → Sim
  | [], s => s
  | inp :: rest, s =>
    let o := frame inp s
    if o.endLoop then o.sim else runLoop rest o.sim

/-- The constant `time.Second`: a `time.Duration`, counted in nanoseconds. -/
def Second : Int := 1000000000

/-- The value `frameDelay := time.Second / TARGET_FPS`, an integer division of
durations. -/
def frameDelay : Int := Int.tdiv Second (TARGET_FPS : Int)

/-- Frame rate control at the end of the callback: the duration passed to
`time.Sleep`, if it is called.  `frameTime` is `time.Since(currentTime)`, the
nanoseconds elapsed on the monotonic clock since the start of the frame, which
is never negative. -/
def frameSleep (frameTime : Nat) : Option Int :=
  if frameDelay > (frameTime : Int) then some (frameDelay - (frameTime : Int)) else none

/-! ## Concrete inputs -/

/-- Reference set for radius 5, as listed in the specification of the
rasterizer: the offsets `(±4, 0)`, `(±4, ±1)`, `(±4, ±2)`, `(±4, ±3)`, `(0, ±4)`,
`(±1, ±4)`, `(±2, ±4)`, `(±3, ±4)` from the centre. -/
def circle5Offsets : List (Int × Int) :=
  [ (4, 0), (-4, 0),
    (4, 1), (4, -1), (-4, 1), (-4, -1),
    (4, 2), (4, -2), (-4, 2), (-4, -2),
    (4, 3), (4, -3), (-4, 3), (-4, -3),
    (0, 4), (0, -4),
    (1, 4), (-1, 4), (1, -4), (-1, -4),
    (2, 4), (-2, 4), (2, -4), (-2, -4),
    (3, 4), (-3, 4), (3, -4), (-3, -4) ]

/-- A ball wider than the arena. -/
def ballWide : Ball :=
  { x := 640, y := 480, dx := 3, dy := 0, mass := 350, radius := 700,
    color := { r := 55, g := 155, b := 254, a := 255 } }

/-- A frame in which a quit event is pending behind another event. -/
def quitFrame : FrameInput :=
  { events := [Event.Other, Event.Quit, Event.Other], fps := 60, spawnRadius := 3,
    spawnBall := { u := 0, v := 0, s := 0, t := 0, cr := 1, cg := 2, cb := 3 } }

/-- A ball that crosses the right wall in the next frame. -/
def ballRight : Ball :=
  { x := 1258, y := 100, dx := 4, dy := 1, mass := 10, radius := 20,
    color := { r := 55, g := 55, b := 55, a := 255 } }

/-- A ball that crosses the floor in the next frame. -/
def ballFloor : Ball :=
  { x := 300, y := 944, dx := 2, dy := 3, mass := 5, radius := 15,
    color := { r := 60, g := 70, b := 80, a := 255 } }

/-- A ball that crosses the right wall and the floor in the same frame. -/
def ballCorner : Ball :=
  { x := 1254, y := 934, dx := 3, dy := 2, mass := 15, radius := 25,
    color := { r := 90, g := 80, b := 70, a := 255 } }

/-- A ball in mid-air, away from every wall. -/
def ballFree : Ball :=
  { x := 640, y := 480, dx := -1, dy := 1, mass := 8, radius := 18,
    color := { r := 100, g := 110, b := 120, a := 255 } }

/-- A ball far outside the arena. -/
def ballOutside : Ball :=
  { x := -500, y := 4000, dx := -30, dy := 70, mass := 12, radius := 22,
    color := { r := 200, g := 210, b := 220, a := 255 } }

/-- Draws of the generator used in examples. -/
def sampleDraws : BallDraws :=
  { u := 1 / 2, v := 3 / 4, s := 1 / 4, t := 0, cr := 0, cg := 100, cb := 199 }

/-- A frame in which some events are pending, none of them a quit event. -/
def sampleFrame : FrameInput :=
  { events := [Event.Other, Event.Other], fps := 60, spawnRadius := 7, spawnBall := sampleDraws }

/-! ## Properties of `Ball.Update` -/

/-- The wall checks change neither the radius, the mass nor the colour. -/
theorem Ball.Update_fixed (b : Ball) :
    b.Update.radius = b.radius ∧ b.Update.mass = b.mass ∧ b.Update.color = b.color := by
  unfold Ball.Update Ball.topWall Ball.bottomWall Ball.leftWall Ball.rightWall
    Ball.integrate Ball.applyGravity
  refine ⟨?_, ?_, ?_⟩ <;> split_ifs <;> rfl

/-- The side-wall checks leave the vertical data and the radius alone. -/
theorem Ball.sideWalls_rest (b : Ball) :
    b.rightWall.leftWall.y = b.y ∧ b.rightWall.leftWall.dy = b.dy ∧
      b.rightWall.leftWall.radius = b.radius := by
  unfold Ball.leftWall Ball.rightWall
  refine ⟨?_, ?_, ?_⟩ <;> split_ifs <;> rfl

/-- Closed form of the side-wall checks when the diameter fits in the width. -/
theorem Ball.sideWalls_pos (b : Ball) (hw : 2 * b.radius ≤ WIDTH) :
    b.rightWall.leftWall.x =
        (if b.x + b.radius > WIDTH then WIDTH - b.radius
          else if b.x - b.radius < 0 then b.radius else b.x) ∧
      b.rightWall.leftWall.dx =
        (if b.x + b.radius > WIDTH ∨ b.x - b.radius < 0 then -b.dx * FRICTION else b.dx) := by
  unfold Ball.leftWall Ball.rightWall
  by_cases h1 : b.x + b.radius > WIDTH
  · have h2 : ¬ (WIDTH - b.radius - b.radius < 0) := by linarith
    simp only [h1, if_true, h2, if_false, true_or, and_self]
  · by_cases h2 : b.x - b.radius < 0
    · simp only [h1, if_false, h2, if_true, or_true, and_self]
    · simp only [h1, if_false, h2, or_self, and_self]

/-- The floor and ceiling checks leave `x` and the radius alone and damp `dx`
exactly when the floor check fires. -/
theorem Ball.floorCeiling_rest (b : Ball) :
    b.bottomWall.topWall.x = b.x ∧ b.bottomWall.topWall.radius = b.radius ∧
      b.bottomWall.topWall.dx =
        (if b.y + b.radius > HEIGHT then b.dx * FRICTION else b.dx) := by
  unfold Ball.topWall Ball.bottomWall
  refine ⟨?_, ?_, ?_⟩ <;> split_ifs <;> rfl

/-- Closed form of the floor and ceiling checks when the diameter fits in the
height. -/
theorem Ball.floorCeiling_pos (b : Ball) (hh : 2 * b.radius ≤ HEIGHT) :
    b.bottomWall.topWall.y =
        (if b.y + b.radius > HEIGHT then HEIGHT - b.radius
          else if b.y - b.radius < 0 then b.radius else b.y) ∧
      b.bottomWall.topWall.dy =
        (if b.y + b.radius > HEIGHT ∨ b.y - b.radius < 0 then -b.dy * FRICTION else b.dy) := by
  unfold Ball.topWall Ball.bottomWall
  by_cases h1 : b.y + b.radius > HEIGHT
  · have h2 : ¬ (HEIGHT - b.radius - b.radius < 0) := by linarith
    simp only [h1, if_true, h2, if_false, true_or, and_self]
  · by_cases h2 : b.y - b.radius < 0
    · simp only [h1, if_false, h2, if_true, or_true, and_self]
    · simp only [h1, if_false, h2, or_self, and_self]

/-- Horizontal position after `Update`, for a diameter that fits in the width. -/
theorem Ball.Update_x (b : Ball) (hw : 2 * b.radius ≤ WIDTH) :
    b.Update.x =
      (if b.x + b.dx + b.radius > WIDTH then WIDTH - b.radius
        else if b.x + b.dx - b.radius < 0 then b.radius else b.x + b.dx) := by
  have h := (Ball.sideWalls_pos b.applyGravity.integrate hw).1
  unfold Ball.Update
  rw [(Ball.floorCeiling_rest _).1, h]
  rfl

/-- Horizontal velocity after `Update`, for a diameter that fits in the width. -/
theorem Ball.Update_dx (b : Ball) (hw : 2 * b.radius ≤ WIDTH) :
    b.Update.dx =
      (if b.y + b.dy + GRAVITY + b.radius > HEIGHT then
        (if b.x + b.dx + b.radius > WIDTH ∨ b.x + b.dx - b.radius < 0 then
          -b.dx * FRICTION else b.dx) * FRICTION
      else
        (if b.x + b.dx + b.radius > WIDTH ∨ b.x + b.dx - b.radius < 0 then
          -b.dx * FRICTION else b.dx)) := by
  have h := (Ball.sideWalls_pos b.applyGravity.integrate hw).2
  have hr := Ball.sideWalls_rest b.applyGravity.integrate
  unfold Ball.Update
  rw [(Ball.floorCeiling_rest _).2.2, h, hr.1, hr.2.2]
  have e : b.applyGravity.integrate.y = b.y + b.dy + GRAVITY := by
    show b.y + (b.dy + GRAVITY) = _
    ring
  rw [e]
  rfl

/-- Vertical position after `Update`, for a diameter that fits in the height. -/
theorem Ball.Update_y (b : Ball) (hh : 2 * b.radius ≤ HEIGHT) :
    b.Update.y =
      (if b.y + b.dy + GRAVITY + b.radius > HEIGHT then HEIGHT - b.radius
        else if b.y + b.dy + GRAVITY - b.radius < 0 then b.radius
        else b.y + b.dy + GRAVITY) := by
  have hr := Ball.sideWalls_rest b.applyGravity.integrate
  have hh2 : 2 * b.applyGravity.integrate.rightWall.leftWall.radius ≤ HEIGHT := by
    rw [hr.2.2]
    exact hh
  have h := (Ball.floorCeiling_pos _ hh2).1
  have e : b.applyGravity.integrate.y = b.y + b.dy + GRAVITY := by
    show b.y + (b.dy + GRAVITY) = _
    ring
  unfold Ball.Update
  rw [h, hr.1, hr.2.2, e]
  rfl

/-- Vertical velocity after `Update`, for a diameter that fits in the height. -/
theorem Ball.Update_dy (b : Ball) (hh : 2 * b.radius ≤ HEIGHT) :
    b.Update.dy =
      (if b.y + b.dy + GRAVITY + b.radius > HEIGHT ∨ b.y + b.dy + GRAVITY - b.radius < 0 then
        -(b.dy + GRAVITY) * FRICTION else b.dy + GRAVITY) := by
  have hr := Ball.sideWalls_rest b.applyGravity.integrate
  have hh2 : 2 * b.applyGravity.integrate.rightWall.leftWall.radius ≤ HEIGHT := by
    rw [hr.2.2]
    exact hh
  have h := (Ball.floorCeiling_pos _ hh2).2
  have e : b.applyGravity.integrate.y = b.y + b.dy + GRAVITY := by
    show b.y + (b.dy + GRAVITY) = _
    ring
  unfold Ball.Update
  rw [h, hr.1, hr.2.1, hr.2.2, e]
  rfl

/-- The arena is wider than it is high. -/
theorem HEIGHT_le_WIDTH : HEIGHT ≤ WIDTH := by
  norm_num [HEIGHT, WIDTH]

/-- The damping factor lies strictly between 0 and 1. -/
theorem FRICTION_bounds : 0 < FRICTION ∧ FRICTION < 1 := by
  norm_num [FRICTION]

/-- C1. Containment invariant: for a ball whose diameter fits in the arena
(in particular for every positive radius with that property), whatever its
position and velocity before the call, after `Update` the ball lies inside the
arena on both axes: `radius ≤ x ≤ WIDTH - radius` and
`radius ≤ y ≤ HEIGHT - radius`. -/
theorem Ball.Update_contained (b : Ball)
    (hw : 2 * b.radius ≤ WIDTH) (hh : 2 * b.radius ≤ HEIGHT) :
    (b.Update.radius ≤ b.Update.x ∧ b.Update.x ≤ WIDTH - b.Update.radius) ∧
      (b.Update.radius ≤ b.Update.y ∧ b.Update.y ≤ HEIGHT - b.Update.radius) := by
  rw [(Ball.Update_fixed b).1, Ball.Update_x b hw, Ball.Update_y b hh]
  refine ⟨⟨?_, ?_⟩, ?_, ?_⟩ <;> split_ifs <;> linarith

/-- The containment invariant at a ball that starts far outside the arena. -/
theorem Ball.Update_contained_witness :
    (ballOutside.Update.radius ≤ ballOutside.Update.x ∧
        ballOutside.Update.x ≤ WIDTH - ballOutside.Update.radius) ∧
      (ballOutside.Update.radius ≤ ballOutside.Update.y ∧
        ballOutside.Update.y ≤ HEIGHT - ballOutside.Update.radius) :=
  Ball.Update_contained ballOutside
    (by norm_num [ballOutside, WIDTH]) (by norm_num [ballOutside, HEIGHT])

/-- C5. Side-wall bounce: for a ball with `2 * radius ≤ WIDTH` (in particular
with `0 < 2 * radius ≤ WIDTH`) that does not hit the floor in this call, if the
integrated position `x + dx` overlaps the right wall then `Update` leaves the
ball at `x = WIDTH - radius`, and if it overlaps the left wall then at
`x = radius`; in both cases the new horizontal velocity is `-dx * FRICTION`, so
the outgoing speed is the incoming speed times `FRICTION`. -/
theorem Ball.Update_side_wall (b : Ball)
    (hw : 2 * b.radius ≤ WIDTH)
    (hfloor : ¬ (b.y + b.dy + GRAVITY + b.radius > HEIGHT)) :
    (b.x + b.dx + b.radius > WIDTH →
        b.Update.x = WIDTH - b.radius ∧ b.Update.dx = -b.dx * FRICTION ∧
          |b.Update.dx| = |b.dx| * FRICTION) ∧
      (b.x + b.dx - b.radius < 0 →
        b.Update.x = b.radius ∧ b.Update.dx = -b.dx * FRICTION ∧
          |b.Update.dx| = |b.dx| * FRICTION) := by
  have habs : |(-b.dx) * FRICTION| = |b.dx| * FRICTION := by
    rw [abs_mul, abs_neg, abs_of_pos FRICTION_bounds.1]
  rw [Ball.Update_x b hw, Ball.Update_dx b hw, if_neg hfloor]
  refine ⟨fun h => ?_, fun h => ?_⟩
  · rw [if_pos h, if_pos (Or.inl h)]
    exact ⟨rfl, rfl, habs⟩
  · have h1 : ¬ (b.x + b.dx + b.radius > WIDTH) := by linarith
    rw [if_neg h1, if_pos h, if_pos (Or.inr h)]
    exact ⟨rfl, rfl, habs⟩

/-- The side-wall bounce at a ball that crosses the right wall. -/
theorem Ball.Update_side_wall_witness :
    ballRight.Update.x = WIDTH - ballRight.radius ∧
      ballRight.Update.dx = -ballRight.dx * FRICTION ∧
      |ballRight.Update.dx| = |ballRight.dx| * FRICTION :=
  (Ball.Update_side_wall ballRight
    (by norm_num [ballRight, WIDTH])
    (by norm_num [ballRight, GRAVITY, HEIGHT])).1 (by norm_num [ballRight, WIDTH])

/-- C6. Floor bounce: for a ball with `2 * radius ≤ HEIGHT` (in particular with
`0 < 2 * radius ≤ HEIGHT`) whose integrated position overlaps the bottom wall
and no side wall, `Update` gives `y = HEIGHT - radius`, vertical velocity
`-(dy + GRAVITY) * FRICTION`, horizontal velocity `dx * FRICTION` (of the sign
of `dx` and no larger in absolute value), and `x = x_old + dx`. -/
theorem Ball.Update_floor (b : Ball)
    (hh : 2 * b.radius ≤ HEIGHT)
    (hfloor : b.y + b.dy + GRAVITY + b.radius > HEIGHT)
    (hright : ¬ (b.x + b.dx + b.radius > WIDTH))
    (hleft : ¬ (b.x + b.dx - b.radius < 0)) :
    b.Update.y = HEIGHT - b.radius ∧
      b.Update.dy = -(b.dy + GRAVITY) * FRICTION ∧
      b.Update.dx = b.dx * FRICTION ∧
      b.Update.x = b.x + b.dx ∧
      SignType.sign b.Update.dx = SignType.sign b.dx ∧
      |b.Update.dx| ≤ |b.dx| := by
  have hw : 2 * b.radius ≤ WIDTH := le_trans hh HEIGHT_le_WIDTH
  have hside : ¬ (b.x + b.dx + b.radius > WIDTH ∨ b.x + b.dx - b.radius < 0) := by
    rintro (h | h)
    · exact hright h
    · exact hleft h
  have h3 : b.Update.dx = b.dx * FRICTION := by
    rw [Ball.Update_dx b hw, if_pos hfloor, if_neg hside]
  refine ⟨?_, ?_, h3, ?_, ?_, ?_⟩
  · rw [Ball.Update_y b hh, if_pos hfloor]
  · rw [Ball.Update_dy b hh, if_pos (Or.inl hfloor)]
  · rw [Ball.Update_x b hw, if_neg hright, if_neg hleft]
  · rw [h3, sign_mul, sign_pos FRICTION_bounds.1, mul_one]
  · rw [h3, abs_mul, abs_of_pos FRICTION_bounds.1]
    exact mul_le_of_le_one_right (abs_nonneg _) FRICTION_bounds.2.le

/-- The floor bounce at a ball that crosses the floor away from the side walls. -/
theorem Ball.Update_floor_witness :
    ballFloor.Update.y = HEIGHT - ballFloor.radius ∧
      ballFloor.Update.dy = -(ballFloor.dy + GRAVITY) * FRICTION ∧
      ballFloor.Update.dx = ballFloor.dx * FRICTION ∧
      ballFloor.Update.x = ballFloor.x + ballFloor.dx ∧
      SignType.sign ballFloor.Update.dx = SignType.sign ballFloor.dx ∧
      |ballFloor.Update.dx| ≤ |ballFloor.dx| :=
  Ball.Update_floor ballFloor
    (by norm_num [ballFloor, HEIGHT])
    (by norm_num [ballFloor, GRAVITY, HEIGHT])
    (by norm_num [ballFloor, WIDTH])
    (by norm_num [ballFloor])

/-- C7. Corner case: for a ball with `2 * radius ≤ HEIGHT` (in particular with
`0 < 2 * radius ≤ HEIGHT`) whose integrated position overlaps a side wall and
also the bottom or the top wall, one call of `Update` clamps both axes (`x` to
`WIDTH - radius` at the right wall and to `radius` at the left wall, `y` to
`HEIGHT - radius` at the bottom and to `radius` at the top) and reflects both
velocities: the new `dy` is `-(dy + GRAVITY) * FRICTION`, the new `dx` is
`-dx * FRICTION` at a top corner and `-dx * FRICTION * FRICTION` at a bottom
corner. -/
theorem Ball.Update_corner (b : Ball) (hh : 2 * b.radius ≤ HEIGHT)
    (hside : b.x + b.dx + b.radius > WIDTH ∨ b.x + b.dx - b.radius < 0)
    (hvert : b.y + b.dy + GRAVITY + b.radius > HEIGHT ∨ b.y + b.dy + GRAVITY - b.radius < 0) :
    (b.Update.x = WIDTH - b.radius ∨ b.Update.x = b.radius) ∧
      (b.Update.y = HEIGHT - b.radius ∨ b.Update.y = b.radius) ∧
      (b.x + b.dx + b.radius > WIDTH → b.Update.x = WIDTH - b.radius) ∧
      (b.x + b.dx - b.radius < 0 → b.Update.x = b.radius) ∧
      (b.y + b.dy + GRAVITY + b.radius > HEIGHT →
        b.Update.y = HEIGHT - b.radius ∧ b.Update.dx = -b.dx * FRICTION * FRICTION) ∧
      (b.y + b.dy + GRAVITY - b.radius < 0 →
        b.Update.y = b.radius ∧ b.Update.dx = -b.dx * FRICTION) ∧
      b.Update.dy = -(b.dy + GRAVITY) * FRICTION := by
  have hw : 2 * b.radius ≤ WIDTH := le_trans hh HEIGHT_le_WIDTH
  have k1 : b.x + b.dx + b.radius > WIDTH → b.Update.x = WIDTH - b.radius := by
    intro h
    rw [Ball.Update_x b hw, if_pos h]
  have k2 : b.x + b.dx - b.radius < 0 → b.Update.x = b.radius := by
    intro h
    have h1 : ¬ (b.x + b.dx + b.radius > WIDTH) := by linarith
    rw [Ball.Update_x b hw, if_neg h1, if_pos h]
  have k3 : b.y + b.dy + GRAVITY + b.radius > HEIGHT →
      b.Update.y = HEIGHT - b.radius ∧ b.Update.dx = -b.dx * FRICTION * FRICTION := by
    intro h
    rw [Ball.Update_y b hh, Ball.Update_dx b hw, if_pos h, if_pos h, if_pos hside]
    exact ⟨rfl, rfl⟩
  have k4 : b.y + b.dy + GRAVITY - b.radius < 0 →
      b.Update.y = b.radius ∧ b.Update.dx = -b.dx * FRICTION := by
    intro h
    have h1 : ¬ (b.y + b.dy + GRAVITY + b.radius > HEIGHT) := by linarith
    rw [Ball.Update_y b hh, Ball.Update_dx b hw, if_neg h1, if_neg h1, if_pos h, if_pos hside]
    exact ⟨rfl, rfl⟩
  have k5 : b.Update.dy = -(b.dy + GRAVITY) * FRICTION := by
    rw [Ball.Update_dy b hh, if_pos hvert]
  refine ⟨?_, ?_, k1, k2, k3, k4, k5⟩
  · rcases hside with hs | hs
    · exact Or.inl (k1 hs)
    · exact Or.inr (k2 hs)
  · rcases hvert with hv | hv
    · exact Or.inl (k3 hv).1
    · exact Or.inr (k4 hv).1

/-- The corner case at a ball that crosses the right wall and the floor together. -/
theorem Ball.Update_corner_witness :
    ballCorner.Update.x = WIDTH - ballCorner.radius ∧
      ballCorner.Update.y = HEIGHT - ballCorner.radius ∧
      ballCorner.Update.dx = -ballCorner.dx * FRICTION * FRICTION ∧
      ballCorner.Update.dy = -(ballCorner.dy + GRAVITY) * FRICTION :=
  have hright : ballCorner.x + ballCorner.dx + ballCorner.radius > WIDTH := by
    norm_num [ballCorner, WIDTH]
  have hfloor : ballCorner.y + ballCorner.dy + GRAVITY + ballCorner.radius > HEIGHT := by
    norm_num [ballCorner, GRAVITY, HEIGHT]
  have h := Ball.Update_corner ballCorner (by norm_num [ballCorner, HEIGHT])
    (Or.inl hright) (Or.inl hfloor)
  ⟨h.2.2.1 hright, (h.2.2.2.2.1 hfloor).1, (h.2.2.2.2.1 hfloor).2, h.2.2.2.2.2.2⟩

/-- C8. Free flight: when the integrated position touches no wall, `Update`
gives `dy' = dy + GRAVITY`, `dx' = dx`, `x' = x + dx` and
`y' = y + dy + GRAVITY`: the position advances with the velocity that already
includes the gravity of this frame. -/
theorem Ball.Update_free (b : Ball)
    (hx : b.radius ≤ b.x + b.dx ∧ b.x + b.dx ≤ WIDTH - b.radius)
    (hy : b.radius ≤ b.y + b.dy + GRAVITY ∧ b.y + b.dy + GRAVITY ≤ HEIGHT - b.radius) :
    b.Update.dy = b.dy + GRAVITY ∧ b.Update.dx = b.dx ∧
      b.Update.x = b.x + b.dx ∧ b.Update.y = b.y + b.dy + GRAVITY ∧
      b.Update.y = b.y + b.Update.dy := by
  have hw : 2 * b.radius ≤ WIDTH := by linarith [hx.1, hx.2]
  have hh : 2 * b.radius ≤ HEIGHT := by linarith [hy.1, hy.2]
  have c1 : ¬ (b.x + b.dx + b.radius > WIDTH) := by linarith [hx.2]
  have c2 : ¬ (b.x + b.dx - b.radius < 0) := by linarith [hx.1]
  have c3 : ¬ (b.y + b.dy + GRAVITY + b.radius > HEIGHT) := by linarith [hy.2]
  have c4 : ¬ (b.y + b.dy + GRAVITY - b.radius < 0) := by linarith [hy.1]
  have c12 : ¬ (b.x + b.dx + b.radius > WIDTH ∨ b.x + b.dx - b.radius < 0) := by
    rintro (h | h)
    · exact c1 h
    · exact c2 h
  have c34 : ¬ (b.y + b.dy + GRAVITY + b.radius > HEIGHT ∨
      b.y + b.dy + GRAVITY - b.radius < 0) := by
    rintro (h | h)
    · exact c3 h
    · exact c4 h
  have e1 : b.Update.dy = b.dy + GRAVITY := by rw [Ball.Update_dy b hh, if_neg c34]
  have e2 : b.Update.dx = b.dx := by rw [Ball.Update_dx b hw, if_neg c3, if_neg c12]
  have e3 : b.Update.x = b.x + b.dx := by rw [Ball.Update_x b hw, if_neg c1, if_neg c2]
  have e4 : b.Update.y = b.y + b.dy + GRAVITY := by rw [Ball.Update_y b hh, if_neg c3, if_neg c4]
  refine ⟨e1, e2, e3, e4, ?_⟩
  rw [e4, e1]
  ring

/-- Free flight at a ball in mid-air. -/
theorem Ball.Update_free_witness :
    ballFree.Update.dy = ballFree.dy + GRAVITY ∧ ballFree.Update.dx = ballFree.dx ∧
      ballFree.Update.x = ballFree.x + ballFree.dx ∧
      ballFree.Update.y = ballFree.y + ballFree.dy + GRAVITY ∧
      ballFree.Update.y = ballFree.y + ballFree.Update.dy :=
  Ball.Update_free ballFree (by norm_num [ballFree, WIDTH])
    (by norm_num [ballFree, GRAVITY, HEIGHT])

/-- C9. Mass independence: two balls that agree on `x`, `y`, `dx`, `dy` and
`radius` have the same `x`, `y`, `dx` and `dy` after `Update`, whatever their
masses, and `Update` leaves the mass of each unchanged. -/
theorem Ball.Update_mass_independent (b1 b2 : Ball)
    (hx : b1.x = b2.x) (hy : b1.y = b2.y) (hdx : b1.dx = b2.dx) (hdy : b1.dy = b2.dy)
    (hr : b1.radius = b2.radius) :
    b1.Update.x = b2.Update.x ∧ b1.Update.y = b2.Update.y ∧
      b1.Update.dx = b2.Update.dx ∧ b1.Update.dy = b2.Update.dy ∧
      b1.Update.mass = b1.mass ∧ b2.Update.mass = b2.mass := by
  refine ⟨?_, ?_, ?_, ?_, (Ball.Update_fixed b1).2.1, (Ball.Update_fixed b2).2.1⟩ <;>
  · unfold Ball.Update Ball.topWall Ball.bottomWall Ball.leftWall Ball.rightWall
      Ball.integrate Ball.applyGravity
    simp only [hx, hy, hdx, hdy, hr]
    split_ifs <;> rfl

/-- Mass independence at two balls of mass 8 and 1000 in the same place. -/
theorem Ball.Update_mass_independent_witness :
    ballFree.Update.x = ({ ballFree with mass := 1000 } : Ball).Update.x ∧
      ballFree.Update.y = ({ ballFree with mass := 1000 } : Ball).Update.y ∧
      ballFree.Update.dx = ({ ballFree with mass := 1000 } : Ball).Update.dx ∧
      ballFree.Update.dy = ({ ballFree with mass := 1000 } : Ball).Update.dy ∧
      ballFree.Update.mass = ballFree.mass ∧
      ({ ballFree with mass := 1000 } : Ball).Update.mass =
        ({ ballFree with mass := 1000 } : Ball).mass :=
  Ball.Update_mass_independent ballFree { ballFree with mass := 1000 } rfl rfl rfl rfl rfl

/-! ## Properties of `NewBall` -/

/-- C10. Containment at creation: for every mass, every radius with
`2 * radius ≤ HEIGHT` (in particular `0 < 2 * radius ≤ HEIGHT`) and all draws `u, v` in `[0, 1)`, the ball made by
`NewBall` has `x = radius + u * (WIDTH - 2 * radius)` and
`y = radius + v * (HEIGHT - 2 * radius)`, hence lies inside the arena on both
axes, and stores the given mass and radius. -/
theorem NewBall_contained (mass radius : ℚ) (d : BallDraws)
    (hh : 2 * radius ≤ HEIGHT)
    (hu : 0 ≤ d.u ∧ d.u < 1) (hv : 0 ≤ d.v ∧ d.v < 1) :
    (NewBall mass radius d).x = radius + d.u * (WIDTH - 2 * radius) ∧
      (NewBall mass radius d).y = radius + d.v * (HEIGHT - 2 * radius) ∧
      (radius ≤ (NewBall mass radius d).x ∧ (NewBall mass radius d).x ≤ WIDTH - radius) ∧
      (radius ≤ (NewBall mass radius d).y ∧ (NewBall mass radius d).y ≤ HEIGHT - radius) ∧
      (NewBall mass radius d).mass = mass ∧ (NewBall mass radius d).radius = radius := by
  have hW : 0 ≤ WIDTH - 2 * radius := by
    simp only [WIDTH, HEIGHT] at hh ⊢
    linarith
  have hH : 0 ≤ HEIGHT - 2 * radius := by linarith
  have hxu : d.u * (WIDTH - 2 * radius) ≤ WIDTH - 2 * radius :=
    mul_le_of_le_one_left hW hu.2.le
  have hyv : d.v * (HEIGHT - 2 * radius) ≤ HEIGHT - 2 * radius :=
    mul_le_of_le_one_left hH hv.2.le
  have hx0 : 0 ≤ d.u * (WIDTH - 2 * radius) := mul_nonneg hu.1 hW
  have hy0 : 0 ≤ d.v * (HEIGHT - 2 * radius) := mul_nonneg hv.1 hH
  refine ⟨rfl, rfl, ⟨?_, ?_⟩, ⟨?_, ?_⟩, rfl, rfl⟩ <;> simp only [NewBall] <;> linarith

/-- Containment at creation for the first ball of `main` with sample draws. -/
theorem NewBall_contained_witness :
    (NewBall 10 20 sampleDraws).x = 20 + sampleDraws.u * (WIDTH - 2 * 20) ∧
      (NewBall 10 20 sampleDraws).y = 20 + sampleDraws.v * (HEIGHT - 2 * 20) ∧
      (20 ≤ (NewBall 10 20 sampleDraws).x ∧ (NewBall 10 20 sampleDraws).x ≤ WIDTH - 20) ∧
      (20 ≤ (NewBall 10 20 sampleDraws).y ∧ (NewBall 10 20 sampleDraws).y ≤ HEIGHT - 20) ∧
      (NewBall 10 20 sampleDraws).mass = 10 ∧ (NewBall 10 20 sampleDraws).radius = 20 :=
  NewBall_contained 10 20 sampleDraws (by norm_num [HEIGHT])
    (by norm_num [sampleDraws]) (by norm_num [sampleDraws])

/-! ## Properties of `DrawCircle` -/

/-- The offsets from the centre plotted in one pass of the loop: `(±x, ±y)` and
`(±y, ±x)`. -/
theorem CircleState.mem_plot (cx cy a b : ℚ) (s : CircleState) :
    RenderOp.RenderPoint (cx + a) (cy + b) ∈ s.plot cx cy ↔
      ((a = s.x ∨ a = -s.x) ∧ (b = s.y ∨ b = -s.y)) ∨
        ((a = s.y ∨ a = -s.y) ∧ (b = s.x ∨ b = -s.x)) := by
  simp only [CircleState.plot, sub_eq_add_neg, List.mem_cons, RenderOp.RenderPoint.injEq,
    add_right_inj, List.mem_singleton, List.not_mem_nil, or_false]
  tauto

/-- The points drawn by `DrawCircle` are those plotted in some pass of its loop. -/
theorem DrawCircle_mem_point (cx cy r p q : ℚ) (c : Color) :
    RenderOp.RenderPoint p q ∈ DrawCircle cx cy r c ↔
      ∃ s ∈ circleLoop (r * 2) (CircleState.init r), RenderOp.RenderPoint p q ∈ s.plot cx cy := by
  simp [DrawCircle, List.mem_flatMap]

/-- The loop body is entered at least once when `x ≥ y` holds on entry. -/
theorem circleLoop_cons (diameter : ℚ) (s : CircleState) (h : s.x ≥ s.y) :
    circleLoop diameter s = s :: circleLoop diameter (s.advance diameter) := by
  rw [circleLoop, if_pos h]

/-- C4, amended. Rasterizer symmetry in exact arithmetic: for every centre and
every radius, whenever `DrawCircle` passes the point `(cx + a, cy + b)` to
`RenderPoint`, it also passes all of `(cx ± a, cy ± b)` and `(cx ± b, cy ± a)`:
the drawn point set is closed under the eight symmetries about the centre. -/
theorem DrawCircle_symmetric (cx cy r : ℚ) (c : Color) (a b : ℚ)
    (h : RenderOp.RenderPoint (cx + a) (cy + b) ∈ DrawCircle cx cy r c) :
    RenderOp.RenderPoint (cx + a) (cy - b) ∈ DrawCircle cx cy r c ∧
      RenderOp.RenderPoint (cx - a) (cy + b) ∈ DrawCircle cx cy r c ∧
      RenderOp.RenderPoint (cx - a) (cy - b) ∈ DrawCircle cx cy r c ∧
      RenderOp.RenderPoint (cx + b) (cy + a) ∈ DrawCircle cx cy r c ∧
      RenderOp.RenderPoint (cx + b) (cy - a) ∈ DrawCircle cx cy r c ∧
      RenderOp.RenderPoint (cx - b) (cy + a) ∈ DrawCircle cx cy r c ∧
      RenderOp.RenderPoint (cx - b) (cy - a) ∈ DrawCircle cx cy r c := by
  obtain ⟨s, hs, hp⟩ := (DrawCircle_mem_point cx cy r _ _ c).mp h
  rw [CircleState.mem_plot] at hp
  have flipA : ∀ u : ℚ, (-a = u ∨ -a = -u) ↔ (a = u ∨ a = -u) := by
    intro u
    constructor
    · rintro (e | e)
      · exact Or.inr (by linarith)
      · exact Or.inl (by linarith)
    · rintro (e | e)
      · exact Or.inr (by linarith)
      · exact Or.inl (by linarith)
  have flipB : ∀ u : ℚ, (-b = u ∨ -b = -u) ↔ (b = u ∨ b = -u) := by
    intro u
    constructor
    · rintro (e | e)
      · exact Or.inr (by linarith)
      · exact Or.inl (by linarith)
    · rintro (e | e)
      · exact Or.inr (by linarith)
      · exact Or.inl (by linarith)
  simp only [DrawCircle_mem_point, sub_eq_add_neg]
  refine ⟨⟨s, hs, ?_⟩, ⟨s, hs, ?_⟩, ⟨s, hs, ?_⟩, ⟨s, hs, ?_⟩, ⟨s, hs, ?_⟩, ⟨s, hs, ?_⟩,
    ⟨s, hs, ?_⟩⟩ <;>
  · rw [CircleState.mem_plot]
    try simp only [flipA, flipB]
    tauto

/-- The symmetry at the first point drawn for a circle of radius 5 about
`(100, 200)`. -/
theorem DrawCircle_symmetric_witness :
    RenderOp.RenderPoint (100 + 4) (200 - 0) ∈ DrawCircle 100 200 5 ballFree.color ∧
      RenderOp.RenderPoint (100 - 4) (200 + 0) ∈ DrawCircle 100 200 5 ballFree.color ∧
      RenderOp.RenderPoint (100 - 4) (200 - 0) ∈ DrawCircle 100 200 5 ballFree.color ∧
      RenderOp.RenderPoint (100 + 0) (200 + 4) ∈ DrawCircle 100 200 5 ballFree.color ∧
      RenderOp.RenderPoint (100 + 0) (200 - 4) ∈ DrawCircle 100 200 5 ballFree.color ∧
      RenderOp.RenderPoint (100 - 0) (200 + 4) ∈ DrawCircle 100 200 5 ballFree.color ∧
      RenderOp.RenderPoint (100 - 0) (200 - 4) ∈ DrawCircle 100 200 5 ballFree.color :=
  DrawCircle_symmetric 100 200 5 ballFree.color 4 0 (by
    rw [DrawCircle_mem_point]
    refine ⟨CircleState.init 5, ?_, ?_⟩
    · rw [circleLoop_cons _ _ (by norm_num [CircleState.init])]
      exact List.mem_cons_self _ _
    · rw [CircleState.mem_plot]
      norm_num [CircleState.init])

/-- Values of the rounding `f32` that are known from binary32: the constants
0.99, 0.05 and 1/3, two ties above `2 ^ 24`, a product, and exact values. -/
theorem f32_examples :
    f32 (99 / 100) = 4152361 / 4194304 ∧ f32 (5 / 100) = 13421773 / 268435456 ∧
      f32 (1 / 3) = 11184811 / 33554432 ∧ f32 16777217 = 16777216 ∧
      f32 16777219 = 16777220 ∧ f32 (-4 * (4152361 / 4194304)) = -4152361 / 1048576 ∧
      f32 1280 = 1280 ∧ f32 0 = 0 := by
  decide!

/-- C4, as stated, fails in the `float32` arithmetic of the program: for the
centre `(511.99997, 480)` and radius 5, with `a = 4.00003` and `b = 0` (all of
them `float32` values, with `cx + a = 516` and `cx - a = 507.99994` exact),
`DrawCircle` stops within 8 passes and draws the point `(cx + a, cy + b)`, since
`511.99997 + 4` rounds to 516, but it does not draw `(cx - a, cy + b)`. -/
theorem DrawCircle32_not_symmetric :
    (f32 (16777215 / 32768) = 16777215 / 32768 ∧ f32 (131073 / 32768) = 131073 / 32768) ∧
      (f32 (16777215 / 32768 + 131073 / 32768) = 16777215 / 32768 + 131073 / 32768 ∧
        f32 (16777215 / 32768 - 131073 / 32768) = 16777215 / 32768 - 131073 / 32768) ∧
      (DrawCircle32 8 (16777215 / 32768) 480 5 ballFree.color).isSome = true ∧
      RenderOp.RenderPoint (16777215 / 32768 + 131073 / 32768) (480 + 0) ∈
        (DrawCircle32 8 (16777215 / 32768) 480 5 ballFree.color).getD [] ∧
      RenderOp.RenderPoint (16777215 / 32768 - 131073 / 32768) (480 + 0) ∉
        (DrawCircle32 8 (16777215 / 32768) 480 5 ballFree.color).getD [] := by
  decide!

/-! ## Properties of the frame loop -/

/-- The balls left by the update-and-draw loop are the old balls, each after
its `Update`, in the same order. -/
theorem updateAndDraw_balls (balls : List Ball) :
    (updateAndDraw balls).1 = balls.map Ball.Update := by
  induction balls with
  | nil => rfl
  | cons b rest ih => simp [updateAndDraw, ih]

/-- The spawn step appends exactly one ball when its condition holds and
otherwise returns the sequence as it is. -/
theorem spawn_eq (frameCount : Int) (balls : List Ball) (k : Nat) (d : BallDraws) :
    spawn frameCount balls k d =
      if frameCount.tmod 180 = 0 ∧ balls.length < N then
        balls ++ [NewBall ((((k + 10 : Nat) : ℚ)) / 2) ((k + 10 : Nat) : ℚ) d]
      else balls := rfl

/-- Number of balls after the spawn step. -/
theorem spawn_length (frameCount : Int) (balls : List Ball) (k : Nat) (d : BallDraws) :
    (spawn frameCount balls k d).length =
      if frameCount.tmod 180 = 0 ∧ balls.length < N then balls.length + 1 else balls.length := by
  rw [spawn_eq]
  split_ifs <;> simp

/-- A frame without a quit event: the callback does not end the loop, the frame
counter is incremented, every ball is updated and the spawn step runs on the
incremented counter. -/
theorem frame_running (inp : FrameInput) (s : Sim) (hq : pollEvents inp.events = false) :
    (frame inp s).endLoop = false ∧
      (frame inp s).sim.frameCount = wrapInt (s.frameCount + 1) ∧
      (frame inp s).sim.balls =
        spawn (wrapInt (s.frameCount + 1)) (s.balls.map Ball.Update) inp.spawnRadius
          inp.spawnBall := by
  simp [frame, hq, updateAndDraw_balls]

/-- Ball count along a run of frames without quit events, from any state that
is on the spawn schedule at frame `f`. -/
theorem runLoop_count (inputs : List FrameInput) :
    ∀ (s : Sim) (f : Nat), (∀ inp ∈ inputs, pollEvents inp.events = false) →
      (f ≤ 1800 → s.frameCount = (f : Int) ∧ s.balls.length = 5 + f / 180) →
      (1800 ≤ f → s.balls.length = 15) →
      (runLoop inputs s).balls.length = min 15 (5 + (f + inputs.length) / 180) := by
  induction inputs with
  | nil =>
    intro s f _ h1 h2
    simp only [runLoop, List.length_nil, Nat.add_zero]
    rcases Nat.lt_or_ge f 1800 with hf | hf
    · have := (h1 hf.le).2
      omega
    · have := h2 hf
      omega
  | cons inp rest ih =>
    intro s f hq h1 h2
    obtain ⟨hq0, hqr⟩ := List.forall_mem_cons.mp hq
    obtain ⟨e1, e2, e3⟩ := frame_running inp s hq0
    have hlen := congrArg List.length e3
    rw [spawn_length, List.length_map] at hlen
    have hrun : runLoop (inp :: rest) s = runLoop rest (frame inp s).sim := by
      simp [runLoop, e1]
    rw [hrun, List.length_cons, ← Nat.add_assoc, Nat.add_right_comm]
    apply ih _ (f + 1) hqr
    · intro hf
      obtain ⟨hc, hl⟩ := h1 (by omega)
      have hw : wrapInt (s.frameCount + 1) = ((f + 1 : Nat) : Int) := by
        unfold wrapInt
        rw [hc]
        push_cast
        omega
      rw [hw] at hlen e2
      have ht : (((f + 1 : Nat) : Int)).tmod 180 = ((f + 1 : Nat) : Int) % 180 :=
        Int.tmod_eq_emod (by omega) (by norm_num)
      rw [ht] at hlen
      refine ⟨e2, ?_⟩
      rw [hlen]
      simp only [N]
      split_ifs with hc2
      · push_cast at hc2
        omega
      · push_cast at hc2
        omega
    · intro hf
      rw [hlen]
      simp only [N]
      rcases Nat.lt_or_ge f 1800 with hf2 | hf2
      · have hf3 : f = 1799 := by omega
        obtain ⟨hc, hl⟩ := h1 hf2.le
        have hw : wrapInt (s.frameCount + 1) = 1800 := by
          unfold wrapInt
          rw [hc, hf3]
          norm_num
        rw [hw, hl, hf3]
        decide
      · have hl := h2 hf2
        have hn : ¬ (s.balls.length < 15) := by omega
        simp [hl]

/-- C2. Spawn schedule: starting from frame counter 0 with the 5 balls of
`main`, after `f` completed frames (none with a quit event) the number of
balls is `min 15 (5 + f / 180)`; equivalently each further frame adds exactly
one ball when its number is a multiple of 180 not above 1800, and none
otherwise. -/
theorem spawn_schedule (d1 d2 d3 d4 d5 : BallDraws) (inputs : List FrameInput)
    (hq : ∀ inp ∈ inputs, pollEvents inp.events = false) :
    (runLoop inputs (initialSim d1 d2 d3 d4 d5)).balls.length =
        min N (5 + inputs.length / 180) ∧
      ∀ inp : FrameInput, pollEvents inp.events = false →
        (runLoop (inputs ++ [inp]) (initialSim d1 d2 d3 d4 d5)).balls.length =
          (runLoop inputs (initialSim d1 d2 d3 d4 d5)).balls.length +
            (if (inputs.length + 1) % 180 = 0 ∧ inputs.length + 1 ≤ 1800 then 1 else 0) := by
  have key : ∀ l : List FrameInput, (∀ inp ∈ l, pollEvents inp.events = false) →
      (runLoop l (initialSim d1 d2 d3 d4 d5)).balls.length = min 15 (5 + l.length / 180) := by
    intro l hl
    have h := runLoop_count l (initialSim d1 d2 d3 d4 d5) 0 hl
      (fun _ => ⟨rfl, rfl⟩) (fun h => absurd h (by norm_num))
    rwa [Nat.zero_add] at h
  refine ⟨key inputs hq, fun inp hinp => ?_⟩
  have hall : ∀ i ∈ inputs ++ [inp], pollEvents i.events = false := by
    intro i hi
    rcases List.mem_append.mp hi with h | h
    · exact hq i h
    · rw [List.mem_singleton.mp h]
      exact hinp
  rw [key _ hall, key _ hq, List.length_append, List.length_singleton]
  split_ifs <;> omega

/-- The spawn schedule after 360 frames: 7 balls. -/
theorem spawn_schedule_witness :
    (runLoop (List.replicate 360 sampleFrame)
      (initialSim sampleDraws sampleDraws sampleDraws sampleDraws sampleDraws)).balls.length =
        7 :=
  (spawn_schedule sampleDraws sampleDraws sampleDraws sampleDraws sampleDraws
    (List.replicate 360 sampleFrame)
    (fun inp h => by rw [List.eq_of_mem_replicate h]; rfl)).1.trans
    (by rw [List.length_replicate]; decide)

/-- C3. Population invariant of the frame step: from a state with at most `N`
balls and any frame counter, a frame without a quit event keeps every old
ball at its place in the sequence (as updated by its own `Update`) and appends
at most one new ball at the end, so the sequence does not get shorter, and it
still has at most `N` balls. -/
theorem frame_population (inp : FrameInput) (s : Sim)
    (hq : pollEvents inp.events = false) (hlen : s.balls.length ≤ N) :
    s.balls.map Ball.Update <+: (frame inp s).sim.balls ∧
      ((frame inp s).sim.balls = s.balls.map Ball.Update ∨
        ∃ ball, (frame inp s).sim.balls = s.balls.map Ball.Update ++ [ball]) ∧
      s.balls.length ≤ (frame inp s).sim.balls.length ∧
      (frame inp s).sim.balls.length ≤ s.balls.length + 1 ∧
      (frame inp s).sim.balls.length ≤ N := by
  obtain ⟨_, _, e3⟩ := frame_running inp s hq
  rw [e3, spawn_eq]
  split_ifs with hc
  · have h2 : (s.balls.map Ball.Update).length < N := hc.2
    rw [List.length_map] at h2
    refine ⟨List.prefix_append _ _, Or.inr ⟨_, rfl⟩, ?_, ?_, ?_⟩ <;>
      simp only [List.length_append, List.length_map, List.length_singleton] <;> omega
  · refine ⟨List.prefix_rfl, Or.inl rfl, ?_, ?_, ?_⟩ <;>
      simp only [List.length_map] <;> omega

/-- The population invariant at the first frame of a run. -/
theorem frame_population_witness :
    (initialSim sampleDraws sampleDraws sampleDraws sampleDraws sampleDraws).balls.map
        Ball.Update <+:
      (frame sampleFrame
        (initialSim sampleDraws sampleDraws sampleDraws sampleDraws sampleDraws)).sim.balls :=
  (frame_population sampleFrame
    (initialSim sampleDraws sampleDraws sampleDraws sampleDraws sampleDraws) rfl
    (by simp [initialSim, N])).1

/-! ## Colour range, quit handling and frame pacing -/

/-- C11, as stated, fails: 255 lies in the range `[55, 255]`, but no draw that
the generator can return gives the red channel of a new ball the value 255. -/
theorem NewBall_color_255_unreachable :
    ((55 : Nat) ≤ 255 ∧ (255 : Nat) ≤ 255) ∧
      ¬ ∃ d : BallDraws, d.Valid ∧ (NewBall 10 20 d).color.r = 255 := by
  refine ⟨by decide, ?_⟩
  rintro ⟨d, hv, h⟩
  have h1 : d.cr < 200 := hv.2.2.2.2.1
  simp only [NewBall, toUint8] at h
  omega

/-- C11, amended. Colour range of `NewBall`: over all draws that the generator
can return, each of the r, g, b channels takes exactly the integers from 55 to
254 (a draw `n` gives the channel `n + 55`, without `uint8` wrap-around, and
every value from 55 to 254 comes from some draw); alpha is always 255. -/
theorem NewBall_color_range (mass radius : ℚ) (v : Nat) :
    ((∃ d : BallDraws, d.Valid ∧ (NewBall mass radius d).color.r = v) ↔ 55 ≤ v ∧ v ≤ 254) ∧
      ((∃ d : BallDraws, d.Valid ∧ (NewBall mass radius d).color.g = v) ↔ 55 ≤ v ∧ v ≤ 254) ∧
      ((∃ d : BallDraws, d.Valid ∧ (NewBall mass radius d).color.b = v) ↔ 55 ≤ v ∧ v ≤ 254) ∧
      (∀ d : BallDraws, d.Valid →
        (NewBall mass radius d).color.r = d.cr + 55 ∧
          (NewBall mass radius d).color.g = d.cg + 55 ∧
          (NewBall mass radius d).color.b = d.cb + 55) ∧
      (∀ d : BallDraws, (NewBall mass radius d).color.a = 255) := by
  have hzero : ∀ cr cg cb : Nat, cr < 200 → cg < 200 → cb < 200 →
      BallDraws.Valid { u := 0, v := 0, s := 0, t := 0, cr := cr, cg := cg, cb := cb } := by
    intro cr cg cb h1 h2 h3
    refine ⟨⟨le_refl _, zero_lt_one⟩, ⟨le_refl _, zero_lt_one⟩, ⟨le_refl _, zero_lt_one⟩,
      ⟨le_refl _, zero_lt_one⟩, h1, h2, h3⟩
  refine ⟨⟨?_, ?_⟩, ⟨?_, ?_⟩, ⟨?_, ?_⟩, ?_, fun _ => rfl⟩
  · rintro ⟨d, hv, h⟩
    have h1 : d.cr < 200 := hv.2.2.2.2.1
    simp only [NewBall, toUint8] at h
    omega
  · rintro ⟨h1, h2⟩
    refine ⟨{ u := 0, v := 0, s := 0, t := 0, cr := v - 55, cg := 0, cb := 0 },
      hzero _ _ _ (by omega) (by omega) (by omega), ?_⟩
    simp only [NewBall, toUint8]
    omega
  · rintro ⟨d, hv, h⟩
    have h1 : d.cg < 200 := hv.2.2.2.2.2.1
    simp only [NewBall, toUint8] at h
    omega
  · rintro ⟨h1, h2⟩
    refine ⟨{ u := 0, v := 0, s := 0, t := 0, cr := 0, cg := v - 55, cb := 0 },
      hzero _ _ _ (by omega) (by omega) (by omega), ?_⟩
    simp only [NewBall, toUint8]
    omega
  · rintro ⟨d, hv, h⟩
    have h1 : d.cb < 200 := hv.2.2.2.2.2.2
    simp only [NewBall, toUint8] at h
    omega
  · rintro ⟨h1, h2⟩
    refine ⟨{ u := 0, v := 0, s := 0, t := 0, cr := 0, cg := 0, cb := v - 55 },
      hzero _ _ _ (by omega) (by omega) (by omega), ?_⟩
    simp only [NewBall, toUint8]
    omega
  · intro d hv
    have h1 : d.cr < 200 := hv.2.2.2.2.1
    have h2 : d.cg < 200 := hv.2.2.2.2.2.1
    have h3 : d.cb < 200 := hv.2.2.2.2.2.2
    simp only [NewBall, toUint8]
    omega

/-- The event loop ends the callback exactly when a quit event is pending. -/
theorem pollEvents_iff (events : List Event) :
    pollEvents events = true ↔ Event.Quit ∈ events := by
  induction events with
  | nil => simp [pollEvents]
  | cons e rest ih =>
    by_cases h : e = Event.Quit
    · simp [pollEvents, h]
    · have h2 : ¬ Event.Quit = e := fun h3 => h h3.symm
      simp [pollEvents, h, h2, ih]

/-- C12. Quit handling: if a quit event is among the pending events, the frame
step returns the loop-ending result, and the frame counter and all balls are as
before, with no call made on the renderer; if none is, the step does not end
the loop and the frame counter is incremented by exactly 1 (one `frameCount++`
on a 64-bit `int`, which is `frameCount + 1` for every counter below the
largest `int`). -/
theorem frame_quit_handling (inp : FrameInput) (s : Sim) :
    (Event.Quit ∈ inp.events →
        (frame inp s).endLoop = true ∧ (frame inp s).sim = s ∧ (frame inp s).ops = []) ∧
      (Event.Quit ∉ inp.events →
        (frame inp s).endLoop = false ∧
          (frame inp s).sim.frameCount = wrapInt (s.frameCount + 1) ∧
          (-2 ^ 63 ≤ s.frameCount + 1 ∧ s.frameCount + 1 < 2 ^ 63 →
            (frame inp s).sim.frameCount = s.frameCount + 1)) := by
  refine ⟨fun h => ?_, fun h => ?_⟩
  · have hq : pollEvents inp.events = true := (pollEvents_iff _).mpr h
    simp [frame, hq]
  · have hq : pollEvents inp.events = false := by
      cases hp : pollEvents inp.events with
      | false => rfl
      | true => exact absurd ((pollEvents_iff _).mp hp) h
    obtain ⟨e1, e2, _⟩ := frame_running inp s hq
    refine ⟨e1, e2, fun hr => ?_⟩
    rw [e2]
    unfold wrapInt
    omega

/-- Quit handling at the start of a run: a frame with a pending quit event and
a frame without one. -/
theorem frame_quit_handling_witness :
    ((frame quitFrame (initialSim sampleDraws sampleDraws sampleDraws sampleDraws
          sampleDraws)).endLoop = true ∧
        (frame quitFrame (initialSim sampleDraws sampleDraws sampleDraws sampleDraws
          sampleDraws)).sim =
          initialSim sampleDraws sampleDraws sampleDraws sampleDraws sampleDraws ∧
        (frame quitFrame (initialSim sampleDraws sampleDraws sampleDraws sampleDraws
          sampleDraws)).ops = []) ∧
      (frame sampleFrame (initialSim sampleDraws sampleDraws sampleDraws sampleDraws
          sampleDraws)).endLoop = false ∧
      (frame sampleFrame (initialSim sampleDraws sampleDraws sampleDraws sampleDraws
          sampleDraws)).sim.frameCount = 0 + 1 :=
  ⟨(frame_quit_handling quitFrame _).1 (by simp [quitFrame]),
    ((frame_quit_handling sampleFrame _).2 (by simp [sampleFrame])).1,
    ((frame_quit_handling sampleFrame _).2 (by simp [sampleFrame])).2.2
      (by simp [initialSim])⟩

/-- The frame delay is 16666666 ns, the whole number of nanoseconds in 1/60 s. -/
theorem frameDelay_eq : frameDelay = 16666666 := by
  decide

/-- C13, as stated, fails: a frame whose work takes 5 ms is given a sleep of
11666666 ns, and work plus sleep, 16666666 ns, is less than 1/60 of a second. -/
theorem frameSleep_below_sixtieth :
    frameSleep 5000000 = some 11666666 ∧
      (((5000000 : Nat) : ℚ) + ((11666666 : Int) : ℚ)) * 60 < ((Second : Int) : ℚ) := by
  refine ⟨?_, ?_⟩
  · simp [frameSleep, frameDelay_eq]
  · norm_num [Second]

/-- C13, amended. Frame pacing in whole nanoseconds: the sleep requested is
`frameDelay - frameTime` when `frameTime < frameDelay` and none otherwise, so
for every `frameTime` the work time plus the requested sleep is at least
`frameDelay`, which is 16666666 ns: the largest whole number of nanoseconds
not above 1/60 s. -/
theorem frameSleep_pacing (frameTime : Nat) :
    frameSleep frameTime =
        (if (frameTime : Int) < frameDelay then some (frameDelay - (frameTime : Int)) else none) ∧
      frameDelay ≤ (frameTime : Int) + (frameSleep frameTime).getD 0 ∧
      frameDelay = 16666666 ∧
      frameDelay * 60 ≤ Second ∧ Second < (frameDelay + 1) * 60 := by
  refine ⟨rfl, ?_, frameDelay_eq, ?_, ?_⟩
  · unfold frameSleep
    split_ifs with h
    · simp
    · simp only [Option.getD_none]
      omega
  · rw [frameDelay_eq]
    decide
  · rw [frameDelay_eq]
    decide

/-! ## Wide balls and horizontal speed -/

/-- C17. Sharpness of the containment precondition: for a ball with
`2 * radius > WIDTH`, whatever its position and velocity, the condition of the
left-wall check holds when that check is reached (after the right-wall check),
so `Update` ends with `x = radius`, which is greater than `WIDTH - radius`: the
bound `x ≤ WIDTH - radius` fails, also for a positive radius. -/
theorem Ball.Update_too_wide (b : Ball) (h : 2 * b.radius > WIDTH) :
    b.applyGravity.integrate.rightWall.x - b.applyGravity.integrate.rightWall.radius < 0 ∧
      b.Update.x = b.radius ∧
      b.Update.x > WIDTH - b.Update.radius ∧
      ¬ (b.Update.x ≤ WIDTH - b.Update.radius) := by
  have hr : b.applyGravity.integrate.rightWall.radius = b.radius := by
    unfold Ball.rightWall
    split_ifs <;> rfl
  have hleft : b.applyGravity.integrate.rightWall.x -
      b.applyGravity.integrate.rightWall.radius < 0 := by
    rw [hr]
    unfold Ball.rightWall
    split_ifs with h1
    · show WIDTH - b.applyGravity.integrate.radius - b.radius < 0
      have : b.applyGravity.integrate.radius = b.radius := rfl
      rw [this]
      linarith
    · have h2 : b.applyGravity.integrate.radius = b.radius := rfl
      rw [h2] at h1
      linarith
  have hx : b.Update.x = b.radius := by
    unfold Ball.Update
    rw [(Ball.floorCeiling_rest _).1]
    unfold Ball.leftWall
    rw [if_pos hleft]
    exact hr
  have hgt : b.Update.x > WIDTH - b.Update.radius := by
    rw [hx, (Ball.Update_fixed b).1]
    linarith
  exact ⟨hleft, hx, hgt, not_le.mpr hgt⟩

/-- A ball of positive radius 700 is left outside the bound by `Update`. -/
theorem Ball.Update_too_wide_witness :
    0 < ballWide.radius ∧ ballWide.Update.x = ballWide.radius ∧
      ¬ (ballWide.Update.x ≤ WIDTH - ballWide.Update.radius) :=
  have h := Ball.Update_too_wide ballWide (by norm_num [ballWide, WIDTH])
  ⟨by norm_num [ballWide], h.2.1, h.2.2.2⟩

/-- The right-wall check multiplies `dx` by `-FRICTION` when it fires. -/
theorem Ball.rightWall_dx (b : Ball) :
    b.rightWall.dx = b.dx * (-FRICTION) ^ (if b.x + b.radius > WIDTH then 1 else 0) := by
  unfold Ball.rightWall
  split_ifs
  · show -b.dx * FRICTION = b.dx * (-FRICTION) ^ 1
    ring
  · show b.dx = b.dx * (-FRICTION) ^ 0
    ring

/-- The left-wall check multiplies `dx` by `-FRICTION` when it fires. -/
theorem Ball.leftWall_dx (b : Ball) :
    b.leftWall.dx = b.dx * (-FRICTION) ^ (if b.x - b.radius < 0 then 1 else 0) := by
  unfold Ball.leftWall
  split_ifs
  · show -b.dx * FRICTION = b.dx * (-FRICTION) ^ 1
    ring
  · show b.dx = b.dx * (-FRICTION) ^ 0
    ring

/-- The bottom-wall check multiplies `dx` by `FRICTION` when it fires. -/
theorem Ball.bottomWall_dx (b : Ball) :
    b.bottomWall.dx = b.dx * FRICTION ^ (if b.y + b.radius > HEIGHT then 1 else 0) := by
  unfold Ball.bottomWall
  split_ifs
  · show b.dx * FRICTION = b.dx * FRICTION ^ 1
    ring
  · show b.dx = b.dx * FRICTION ^ 0
    ring

/-- The top-wall check leaves `dx` alone. -/
theorem Ball.topWall_dx (b : Ball) : b.topWall.dx = b.dx := by
  unfold Ball.topWall
  split_ifs <;> rfl

/-- C18. Horizontal speed never grows: for every ball state, `|dx|` after
`Update` is at most `|dx|` before; it is strictly smaller when `dx` is not zero
and the right, the left or the bottom wall check fired; and the new `dx` is the
old one times `-FRICTION` for each side-wall check that fired and times
`FRICTION` if the bottom-wall check fired. -/
theorem Ball.Update_speed (b : Ball) :
    |b.Update.dx| ≤ |b.dx| ∧
      (b.dx ≠ 0 →
        (b.applyGravity.integrate.x + b.applyGravity.integrate.radius > WIDTH ∨
          b.applyGravity.integrate.rightWall.x -
            b.applyGravity.integrate.rightWall.radius < 0 ∨
          b.applyGravity.integrate.rightWall.leftWall.y +
            b.applyGravity.integrate.rightWall.leftWall.radius > HEIGHT) →
        |b.Update.dx| < |b.dx|) ∧
      b.Update.dx =
        b.dx *
          (-FRICTION) ^
            ((if b.applyGravity.integrate.x + b.applyGravity.integrate.radius > WIDTH
                then 1 else 0) +
              (if b.applyGravity.integrate.rightWall.x -
                  b.applyGravity.integrate.rightWall.radius < 0 then 1 else 0)) *
          FRICTION ^
            (if b.applyGravity.integrate.rightWall.leftWall.y +
                b.applyGravity.integrate.rightWall.leftWall.radius > HEIGHT then 1 else 0) := by
  have e : b.Update.dx =
        b.dx *
          (-FRICTION) ^
            ((if b.applyGravity.integrate.x + b.applyGravity.integrate.radius > WIDTH
                then 1 else 0) +
              (if b.applyGravity.integrate.rightWall.x -
                  b.applyGravity.integrate.rightWall.radius < 0 then 1 else 0)) *
          FRICTION ^
            (if b.applyGravity.integrate.rightWall.leftWall.y +
                b.applyGravity.integrate.rightWall.leftWall.radius > HEIGHT then 1 else 0) := by
    unfold Ball.Update
    rw [Ball.topWall_dx, Ball.bottomWall_dx, Ball.leftWall_dx, Ball.rightWall_dx, pow_add]
    have h0 : b.applyGravity.integrate.dx = b.dx := rfl
    rw [h0]
    ring
  have hA : 0 ≤ |b.dx| := abs_nonneg _
  have habs : ∀ n m : Nat, |b.dx * (-FRICTION) ^ n * FRICTION ^ m| =
      |b.dx| * FRICTION ^ n * FRICTION ^ m := by
    intro n m
    rw [abs_mul, abs_mul, abs_pow, abs_pow, abs_neg, abs_of_pos FRICTION_bounds.1]
  refine ⟨?_, ?_, e⟩
  · rw [e, habs]
    split_ifs <;> norm_num [FRICTION] <;> linarith
  · intro hne hfire
    have hpos : 0 < |b.dx| := abs_pos.mpr hne
    rw [e, habs]
    split_ifs <;> norm_num [FRICTION] <;>
      first
        | linarith
        | (exfalso; rcases hfire with h | h | h <;> contradiction)

/-- The speed bound at a ball that crosses the right wall and the floor. -/
theorem Ball.Update_speed_witness :
    |ballCorner.Update.dx| < |ballCorner.dx| :=
  (Ball.Update_speed ballCorner).2.1 (by norm_num [ballCorner])
    (Or.inl (by
      show ballCorner.x + ballCorner.dx + ballCorner.radius > WIDTH
      norm_num [ballCorner, WIDTH]))

/-! ## The loop of `DrawCircle` -/

/-- The loop body is not entered when `x ≥ y` fails. -/
theorem circleLoop_nil (diameter : ℚ) (s : CircleState) (h : ¬ s.x ≥ s.y) :
    circleLoop diameter s = [] := by
  rw [circleLoop, if_neg h]

/-- One pass of the loop body raises `y` by one or lowers `x` by one, and
lowers `x - y` by at least one. -/
theorem CircleState.advance_gap (diameter : ℚ) (s : CircleState) :
    ((s.advance diameter).y = s.y + 1 ∨ (s.advance diameter).x = s.x - 1) ∧
      (s.advance diameter).x - (s.advance diameter).y ≤ s.x - s.y - 1 := by
  unfold CircleState.advance
  by_cases h1 : s.error ≤ 0
  · by_cases h2 : s.error + s.ty > 0
    · simp only [h1, if_true, h2]
      exact ⟨Or.inl trivial, by linarith⟩
    · simp only [h1, if_true, h2, if_false]
      exact ⟨Or.inl trivial, by linarith⟩
  · have h3 : s.error > 0 := lt_of_not_ge h1
    simp only [h1, if_false, h3, if_true]
    exact ⟨Or.inr trivial, by linarith⟩

/-- The loop stops: from a state with `x - y < n` the guard `x ≥ y` fails after
`k ≤ n` passes of the body, and `k` is the number of passes the loop makes. -/
theorem circleLoop_passes (diameter : ℚ) :
    ∀ (n : Nat) (s : CircleState), s.x - s.y < n →
      ∃ k : Nat, k ≤ n ∧
        ¬ ((CircleState.advance diameter)^[k] s).x ≥ ((CircleState.advance diameter)^[k] s).y ∧
        (circleLoop diameter s).length = k := by
  intro n
  induction n with
  | zero =>
    intro s h
    have hg : ¬ s.x ≥ s.y := by
      simp only [Nat.cast_zero] at h
      intro hge
      linarith
    exact ⟨0, le_refl _, hg, by rw [circleLoop_nil _ _ hg]; rfl⟩
  | succ n ih =>
    intro s h
    by_cases hg : s.x ≥ s.y
    · have hgap := (CircleState.advance_gap diameter s).2
      have h2 : (s.advance diameter).x - (s.advance diameter).y < n := by
        push_cast at h
        linarith
      obtain ⟨k, hk, hstop, hlen⟩ := ih (s.advance diameter) h2
      refine ⟨k + 1, Nat.succ_le_succ hk, ?_, ?_⟩
      · rw [Function.iterate_succ_apply]
        exact hstop
      · rw [circleLoop_cons _ _ hg, List.length_cons, hlen]
    · exact ⟨0, Nat.zero_le _, hg, by rw [circleLoop_nil _ _ hg]; rfl⟩

/-- A property kept by the loop body, whenever the body is entered, holds in
every state in which the body is entered. -/
theorem circleLoop_forall (diameter : ℚ) (P : CircleState → Prop)
    (hstep : ∀ s, P s → s.x ≥ s.y → P (s.advance diameter)) :
    ∀ (n : Nat) (s : CircleState), s.x - s.y < n → P s → ∀ t ∈ circleLoop diameter s, P t := by
  intro n
  induction n with
  | zero =>
    intro s h _ t ht
    have hg : ¬ s.x ≥ s.y := by
      simp only [Nat.cast_zero] at h
      intro hge
      linarith
    rw [circleLoop_nil _ _ hg] at ht
    exact absurd ht (List.not_mem_nil t)
  | succ n ih =>
    intro s h hP t ht
    by_cases hg : s.x ≥ s.y
    · rw [circleLoop_cons _ _ hg] at ht
      rcases List.mem_cons.mp ht with rfl | ht2
      · exact hP
      · have hgap := (CircleState.advance_gap diameter s).2
        have h2 : (s.advance diameter).x - (s.advance diameter).y < n := by
          push_cast at h
          linarith
        exact ih (s.advance diameter) h2 (hstep s hP hg) t ht2
    · rw [circleLoop_nil _ _ hg] at ht
      exact absurd ht (List.not_mem_nil t)

/-- C16. Rasteriser termination: for every radius the loop of `DrawCircle`
stops: the guard `x ≥ y` fails after a number `k` of passes of the body, which
is the number of passes the loop makes; `k = 0` when `radius < 1` and
`k ≤ ⌊radius⌋` otherwise. Every pass raises `y` by one or lowers `x` by one, so
that `x - y` drops by at least one. -/
theorem DrawCircle_terminates (radius : ℚ) :
    (∃ k : Nat,
        ¬ ((CircleState.advance (radius * 2))^[k] (CircleState.init radius)).x ≥
            ((CircleState.advance (radius * 2))^[k] (CircleState.init radius)).y ∧
          (circleLoop (radius * 2) (CircleState.init radius)).length = k ∧
          (radius < 1 → k = 0) ∧ (1 ≤ radius → (k : Int) ≤ ⌊radius⌋)) ∧
      ∀ (diameter : ℚ) (s : CircleState),
        ((s.advance diameter).y = s.y + 1 ∨ (s.advance diameter).x = s.x - 1) ∧
          (s.advance diameter).x - (s.advance diameter).y ≤ s.x - s.y - 1 := by
  refine ⟨?_, fun d s => CircleState.advance_gap d s⟩
  have hx : (CircleState.init radius).x - (CircleState.init radius).y = radius - 1 := by
    simp [CircleState.init]
  by_cases hr : radius < 1
  · have hg : ¬ (CircleState.init radius).x ≥ (CircleState.init radius).y := by
      intro hge
      have := sub_nonneg.mpr hge
      rw [hx] at this
      linarith
    refine ⟨0, hg, by rw [circleLoop_nil _ _ hg]; rfl, fun _ => rfl, fun h => ?_⟩
    exact absurd hr (not_lt.mpr h)
  · have h1 : 1 ≤ radius := not_lt.mp hr
    have hf : (1 : Int) ≤ ⌊radius⌋ := Int.le_floor.mpr (by simpa using h1)
    have hlt : (CircleState.init radius).x - (CircleState.init radius).y <
        ((⌊radius⌋.toNat : Nat) : ℚ) := by
      rw [hx]
      have h2 : ((⌊radius⌋.toNat : Nat) : ℚ) = ((⌊radius⌋ : Int) : ℚ) := by
        have : ((⌊radius⌋.toNat : Nat) : Int) = ⌊radius⌋ := Int.toNat_of_nonneg (by omega)
        exact_mod_cast this
      rw [h2]
      have := Int.lt_floor_add_one radius
      linarith
    obtain ⟨k, hk, hstop, hlen⟩ := circleLoop_passes (radius * 2) _ _ hlt
    refine ⟨k, hstop, hlen, fun h => absurd h hr, fun _ => ?_⟩
    omega

/-- The loop invariant of `DrawCircle` is kept by the loop body. -/
theorem CircleState.advance_invariant (r : ℚ) (s : CircleState)
    (hI : s.error = s.x ^ 2 + s.y ^ 2 - r ^ 2 ∧ s.ty = 2 * s.y + 1 ∧
      s.tx = 2 * r - 2 * s.x - 1 ∧ 0 ≤ s.y ∧ s.x ≤ r - 1 ∧ (s.x ≥ s.y → s.error ≤ 0) ∧
      1 - 2 * r ≤ s.error)
    (hg : s.x ≥ s.y) :
    (s.advance (r * 2)).error =
        (s.advance (r * 2)).x ^ 2 + (s.advance (r * 2)).y ^ 2 - r ^ 2 ∧
      (s.advance (r * 2)).ty = 2 * (s.advance (r * 2)).y + 1 ∧
      (s.advance (r * 2)).tx = 2 * r - 2 * (s.advance (r * 2)).x - 1 ∧
      0 ≤ (s.advance (r * 2)).y ∧ (s.advance (r * 2)).x ≤ r - 1 ∧
      ((s.advance (r * 2)).x ≥ (s.advance (r * 2)).y → (s.advance (r * 2)).error ≤ 0) ∧
      1 - 2 * r ≤ (s.advance (r * 2)).error := by
  obtain ⟨i1, i2, i3, i4, i5, i6, i7⟩ := hI
  have he : s.error ≤ 0 := i6 hg
  unfold CircleState.advance
  by_cases h2 : s.error + s.ty > 0
  · simp only [he, if_true, h2]
    refine ⟨?_, ?_, ?_, ?_, ?_, ?_, ?_⟩
    · rw [i1, i2, i3]; ring
    · rw [i2]; ring
    · rw [i3]; ring
    · linarith
    · linarith
    · intro hge
      rw [i3]
      rw [i2] at h2 ⊢
      have : s.x - 1 ≥ s.y + 1 := hge
      linarith
    · rw [i3]
      linarith
  · simp only [he, if_true, h2, if_false]
    refine ⟨?_, ?_, i3, ?_, i5, ?_, ?_⟩
    · rw [i1, i2]; ring
    · rw [i2]; ring
    · linarith
    · intro _
      exact not_lt.mp h2
    · rw [i2]
      linarith

/-- The guard `x ≥ y` holds in every state in which the loop body is entered. -/
theorem circleLoop_guard (diameter : ℚ) :
    ∀ (n : Nat) (s : CircleState), s.x - s.y < n →
      ∀ u ∈ circleLoop diameter s, u.x ≥ u.y := by
  intro m
  induction m with
  | zero =>
    intro s h u hu
    have hg : ¬ s.x ≥ s.y := by
      simp only [Nat.cast_zero] at h
      intro hge
      linarith
    rw [circleLoop_nil _ _ hg] at hu
    exact absurd hu (List.not_mem_nil u)
  | succ m ih =>
    intro s h u hu
    by_cases hg : s.x ≥ s.y
    · rw [circleLoop_cons _ _ hg] at hu
      rcases List.mem_cons.mp hu with rfl | h2
      · exact hg
      · have hgap := (CircleState.advance_gap diameter s).2
        have h3 : (s.advance diameter).x - (s.advance diameter).y < m := by
          push_cast at h
          linarith
        exact ih _ h3 u h2
    · rw [circleLoop_nil _ _ hg] at hu
      exact absurd hu (List.not_mem_nil u)

/-- The loop invariant holds in every state in which the loop body of
`DrawCircle` is entered: `error = x² + y² - r²`, with `error ≤ 0`,
`1 - 2r ≤ error`, `0 ≤ y` and `x ≤ r - 1`. -/
theorem circleLoop_invariant (r : ℚ) (t : CircleState)
    (ht : t ∈ circleLoop (r * 2) (CircleState.init r)) :
    t.error = t.x ^ 2 + t.y ^ 2 - r ^ 2 ∧ t.error ≤ 0 ∧ 1 - 2 * r ≤ t.error ∧
      0 ≤ t.y ∧ t.y ≤ t.x ∧ t.x ≤ r - 1 := by
  obtain ⟨n, hn⟩ := exists_nat_gt ((CircleState.init r).x - (CircleState.init r).y)
  have hinit : (CircleState.init r).error =
        (CircleState.init r).x ^ 2 + (CircleState.init r).y ^ 2 - r ^ 2 ∧
      (CircleState.init r).ty = 2 * (CircleState.init r).y + 1 ∧
      (CircleState.init r).tx = 2 * r - 2 * (CircleState.init r).x - 1 ∧
      0 ≤ (CircleState.init r).y ∧ (CircleState.init r).x ≤ r - 1 ∧
      ((CircleState.init r).x ≥ (CircleState.init r).y → (CircleState.init r).error ≤ 0) ∧
      1 - 2 * r ≤ (CircleState.init r).error := by
    simp only [CircleState.init]
    refine ⟨by ring, by ring, by ring, le_refl _, le_refl _, fun h => ?_, by linarith⟩
    have : (0 : ℚ) ≤ r - 1 := h
    linarith
  have hall := circleLoop_forall (r * 2)
    (fun s => (s.error = s.x ^ 2 + s.y ^ 2 - r ^ 2 ∧ s.ty = 2 * s.y + 1 ∧
      s.tx = 2 * r - 2 * s.x - 1 ∧ 0 ≤ s.y ∧ s.x ≤ r - 1 ∧ (s.x ≥ s.y → s.error ≤ 0) ∧
      1 - 2 * r ≤ s.error))
    (fun s hI hg => CircleState.advance_invariant r s hI hg) n _ hn hinit t ht
  have hge : t.x ≥ t.y := circleLoop_guard (r * 2) n _ hn t ht
  obtain ⟨i1, _, _, i4, i5, i6, i7⟩ := hall
  exact ⟨i1, i6 hge, i7, i4, hge, i5⟩

/-- C15. Ring bound of the rasteriser: for every centre and every radius
`r ≥ 1`, every point `(cx + a, cy + b)` drawn by `DrawCircle` satisfies
`(r - 1)² ≤ a² + b² ≤ r²`, hence lies in the bounding box `|a| ≤ r`, `|b| ≤ r`;
it is plotted in a pass of the loop at whose head `error = x² + y² - r²` holds
with `a² + b² = x² + y²`. -/
theorem DrawCircle_ring (cx cy r : ℚ) (c : Color) (hr : 1 ≤ r) (a b : ℚ)
    (h : RenderOp.RenderPoint (cx + a) (cy + b) ∈ DrawCircle cx cy r c) :
    ((r - 1) ^ 2 ≤ a ^ 2 + b ^ 2 ∧ a ^ 2 + b ^ 2 ≤ r ^ 2) ∧
      (|a| ≤ r ∧ |b| ≤ r) ∧
      ∃ s ∈ circleLoop (r * 2) (CircleState.init r),
        s.error = s.x ^ 2 + s.y ^ 2 - r ^ 2 ∧ a ^ 2 + b ^ 2 = s.x ^ 2 + s.y ^ 2 := by
  obtain ⟨s, hs, hp⟩ := (DrawCircle_mem_point cx cy r _ _ c).mp h
  rw [CircleState.mem_plot] at hp
  obtain ⟨i1, i2, i3, _, _, _⟩ := circleLoop_invariant r s hs
  have hsq : a ^ 2 + b ^ 2 = s.x ^ 2 + s.y ^ 2 := by
    rcases hp with ⟨ha | ha, hb | hb⟩ | ⟨ha | ha, hb | hb⟩ <;> rw [ha, hb] <;> ring
  have hup : a ^ 2 + b ^ 2 ≤ r ^ 2 := by
    rw [hsq]
    linarith
  have hlow : (r - 1) ^ 2 ≤ a ^ 2 + b ^ 2 := by
    rw [hsq]
    have : (r - 1) ^ 2 = r ^ 2 + (1 - 2 * r) := by ring
    rw [this]
    linarith
  have hr0 : 0 ≤ r := by linarith
  have hbox : ∀ z w : ℚ, z ^ 2 + w ^ 2 ≤ r ^ 2 → |z| ≤ r := by
    intro z w hzw
    have hz : z ^ 2 ≤ r ^ 2 := by nlinarith [sq_nonneg w]
    exact abs_le_of_sq_le_sq hz hr0
  refine ⟨⟨hlow, hup⟩, ⟨hbox a b hup, hbox b a (by linarith)⟩, s, hs, i1, hsq⟩

/-- The ring bound at the first point drawn for a circle of radius 5 about
`(100, 200)`. -/
theorem DrawCircle_ring_witness :
    RenderOp.RenderPoint (100 + 4) (200 + 0) ∈ DrawCircle 100 200 5 ballRight.color ∧
      ((5 - 1 : ℚ) ^ 2 ≤ 4 ^ 2 + 0 ^ 2 ∧ (4 : ℚ) ^ 2 + 0 ^ 2 ≤ 5 ^ 2) ∧
      (|(4 : ℚ)| ≤ 5 ∧ |(0 : ℚ)| ≤ 5) :=
  have hm : RenderOp.RenderPoint (100 + 4) (200 + 0) ∈ DrawCircle 100 200 5 ballRight.color := by
    rw [DrawCircle_mem_point]
    refine ⟨CircleState.init 5, ?_, ?_⟩
    · rw [circleLoop_cons _ _ (by norm_num [CircleState.init])]
      exact List.mem_cons_self _ _
    · rw [CircleState.mem_plot]
      norm_num [CircleState.init]
  have h := DrawCircle_ring 100 200 5 ballRight.color (by norm_num) 4 0 hm
  ⟨hm, h.1, h.2.1⟩

/-- The four passes of the loop of `DrawCircle` for radius 5. -/
theorem circleLoop_radius_five :
    circleLoop (5 * 2) (CircleState.init 5) =
      [ { x := 4, y := 0, tx := 1, ty := 1, error := -9 },
        { x := 4, y := 1, tx := 1, ty := 3, error := -8 },
        { x := 4, y := 2, tx := 1, ty := 5, error := -5 },
        { x := 4, y := 3, tx := 1, ty := 7, error := 0 } ] := by
  have hi : CircleState.init 5 = { x := 4, y := 0, tx := 1, ty := 1, error := -9 } := by
    simp only [CircleState.init]
    norm_num
  have a0 : CircleState.advance (5 * 2) { x := 4, y := 0, tx := 1, ty := 1, error := -9 } =
      { x := 4, y := 1, tx := 1, ty := 3, error := -8 } := by
    norm_num [CircleState.advance]
  have a1 : CircleState.advance (5 * 2) { x := 4, y := 1, tx := 1, ty := 3, error := -8 } =
      { x := 4, y := 2, tx := 1, ty := 5, error := -5 } := by
    norm_num [CircleState.advance]
  have a2 : CircleState.advance (5 * 2) { x := 4, y := 2, tx := 1, ty := 5, error := -5 } =
      { x := 4, y := 3, tx := 1, ty := 7, error := 0 } := by
    norm_num [CircleState.advance]
  have a3 : CircleState.advance (5 * 2) { x := 4, y := 3, tx := 1, ty := 7, error := 0 } =
      { x := 3, y := 4, tx := 3, ty := 9, error := 0 } := by
    norm_num [CircleState.advance]
  rw [hi, circleLoop_cons _ _ (by norm_num), a0, circleLoop_cons _ _ (by norm_num), a1,
    circleLoop_cons _ _ (by norm_num), a2, circleLoop_cons _ _ (by norm_num), a3,
    circleLoop_nil _ _ (by norm_num)]

/-- C14. Reference point set for radius 5: for every centre, the loop of
`DrawCircle` makes exactly 4 passes, at `(x, y) = (4,0), (4,1), (4,2), (4,3)` in
this order; in the fourth pass both branches fire (`error = 0 ≤ 0` raises `y`
and leaves `error = 7 > 0`, which lowers `x`); and the points drawn are exactly
`(cx + a, cy + b)` for the 28 distinct offsets `(a, b)` of the reference set. -/
theorem DrawCircle_radius_five (cx cy : ℚ) (c : Color) :
    (circleLoop (5 * 2) (CircleState.init 5)).map (fun s => (s.x, s.y)) =
        [(4, 0), (4, 1), (4, 2), (4, 3)] ∧
      (circleLoop (5 * 2) (CircleState.init 5)).map (fun s => s.error) = [-9, -8, -5, 0] ∧
      (({ x := 4, y := 3, tx := 1, ty := 7, error := 0 } : CircleState).error ≤ 0 ∧
        ({ x := 4, y := 3, tx := 1, ty := 7, error := 0 } : CircleState).error +
          ({ x := 4, y := 3, tx := 1, ty := 7, error := 0 } : CircleState).ty > 0 ∧
        CircleState.advance (5 * 2) { x := 4, y := 3, tx := 1, ty := 7, error := 0 } =
          { x := 3, y := 4, tx := 3, ty := 9, error := 0 }) ∧
      (∀ a b : ℚ, RenderOp.RenderPoint (cx + a) (cy + b) ∈ DrawCircle cx cy 5 c ↔
        ∃ o ∈ circle5Offsets, a = (o.1 : ℚ) ∧ b = (o.2 : ℚ)) ∧
      circle5Offsets.Nodup ∧ circle5Offsets.length = 28 := by
  refine ⟨?_, ?_, ⟨le_refl _, by norm_num, by norm_num [CircleState.advance]⟩, ?_,
    by decide, by decide⟩
  · rw [circleLoop_radius_five]
    rfl
  · rw [circleLoop_radius_five]
    rfl
  · intro a b
    rw [DrawCircle_mem_point, circleLoop_radius_five]
    simp only [List.mem_cons, List.mem_singleton, List.not_mem_nil, or_false,
      exists_eq_or_imp, exists_eq_left, CircleState.mem_plot, circle5Offsets, Prod.exists,
      Prod.mk.injEq]
    constructor
    · intro h
      rcases h with (⟨ha | ha, hb | hb⟩ | ⟨ha | ha, hb | hb⟩) |
        (⟨ha | ha, hb | hb⟩ | ⟨ha | ha, hb | hb⟩) |
        (⟨ha | ha, hb | hb⟩ | ⟨ha | ha, hb | hb⟩) |
        (⟨ha | ha, hb | hb⟩ | ⟨ha | ha, hb | hb⟩) <;>
      · subst ha hb
        norm_num
    · intro h
      rcases h with ⟨ha, hb⟩ | ⟨ha, hb⟩ | ⟨ha, hb⟩ | ⟨ha, hb⟩ | ⟨ha, hb⟩ | ⟨ha, hb⟩ | ⟨ha, hb⟩ |
        ⟨ha, hb⟩ | ⟨ha, hb⟩ | ⟨ha, hb⟩ | ⟨ha, hb⟩ | ⟨ha, hb⟩ | ⟨ha, hb⟩ | ⟨ha, hb⟩ |
        ⟨ha, hb⟩ | ⟨ha, hb⟩ | ⟨ha, hb⟩ | ⟨ha, hb⟩ | ⟨ha, hb⟩ | ⟨ha, hb⟩ | ⟨ha, hb⟩ |
        ⟨ha, hb⟩ | ⟨ha, hb⟩ | ⟨ha, hb⟩ | ⟨ha, hb⟩ | ⟨ha, hb⟩ | ⟨ha, hb⟩ | ⟨ha, hb⟩ <;>
      · subst ha hb
        norm_num

end Physics
